import Mathlib

/-!
Verification development for the CodexLab project orchestrator
(`ProjectOrchestrator`, staged/memfs variant), a shallow embedding of the
TypeScript source.  External services (the text generator, the E2B sandbox,
the local component files and the JSON parser builtin) are modelled as an
explicit capability oracle; all orchestrator logic (control flow, event
emission, state updates, string processing) is translated from the source.
-/

/-! ## JavaScript string helpers -/

/-- The backtick character, written via its code point. -/
def btick : Char := Char.ofNat 96

/-- JS regex word character class: letters, digits, underscore. -/
def isWordChar (c : Char) : Bool := c.isAlphanum || c = '_'

/-- Does the character list begin with three backticks? -/
def fenceHead (l : List Char) : Bool :=
  match l with
  | c1 :: c2 :: c3 :: _ => c1 = btick && c2 = btick && c3 = btick
  | _ => false

/-- Global replacement of the JS regex on a character
list: at each position the first alternative (three backticks, then word
characters, then an optional newline) is tried, then the second (an optional
newline followed by three backticks); unmatched characters are kept.  This is
the fence-stripping `replace` call in `generateFileToMemfs`.  Fuel bounds the
recursion; each step consumes at least one character. -/
def stripFenceAux (fuel : Nat) (l : List Char) : List Char :=
  match fuel with
  | 0 => l
  | fuel + 1 =>
    match l with
    | [] => []
    | c :: cs =>
      if fenceHead (c :: cs) then
        let rest := (cs.drop 2).dropWhile isWordChar
        let rest2 := match rest with
          | d :: ds => if d = '\n' then ds else d :: ds
          | [] => []
        stripFenceAux fuel rest2
      else if c = '\n' && fenceHead cs then
        stripFenceAux fuel (cs.drop 3)
      else
        c :: stripFenceAux fuel cs

/-- The seven characters opening a fenced JSON block. -/
def jsonFenceTag : List Char := [btick, btick, btick, 'j', 's', 'o', 'n']

/-- Global replacement of the plan-cleaning JS regex (first alternative: three
backticks, the letters of the json tag, optional newline; second alternative:
optional newline then three backticks), from `generateProjectPlan`. -/
def stripJsonFenceAux (fuel : Nat) (l : List Char) : List Char :=
  match fuel with
  | 0 => l
  | fuel + 1 =>
    match l with
    | [] => []
    | c :: cs =>
      if jsonFenceTag.isPrefixOf (c :: cs) then
        let rest := cs.drop 6
        let rest2 := match rest with
          | d :: ds => if d = '\n' then ds else d :: ds
          | [] => []
        stripJsonFenceAux fuel rest2
      else if c = '\n' && fenceHead cs then
        stripJsonFenceAux fuel (cs.drop 3)
      else if fenceHead (c :: cs) then
        stripJsonFenceAux fuel (cs.drop 2)
      else
        c :: stripJsonFenceAux fuel cs

/-- JS `String.prototype.trim` on a character list (ASCII whitespace). -/
def trimChars (l : List Char) : List Char :=
  ((l.dropWhile Char.isWhitespace).reverse.dropWhile Char.isWhitespace).reverse

/-- The content clean-up in `generateFileToMemfs`: strip all code-fence
matches, then trim. -/
def cleanContent (s : String) : String :=
  let l := s.toList
  String.mk (trimChars (stripFenceAux l.length l))

/-- The response clean-up in `generateProjectPlan`: trim, strip the
json-fence regex matches, trim again. -/
def cleanPlanText (s : String) : String :=
  let l := trimChars s.toList
  String.mk (trimChars (stripJsonFenceAux l.length l))

/-- Scan for an occurrence of `sub` in `l` (JS `String.prototype.includes`). -/
def hasSub : List Char → List Char → Bool
  | [], sub => sub.isEmpty
  | c :: cs, sub => sub.isPrefixOf (c :: cs) || hasSub cs sub

/-- JS `s.includes(sub)`. -/
def jsIncludes (s sub : String) : Bool := hasSub s.toList sub.toList

/-- String prefix test, JS `s.startsWith(p)` (via the character lists). -/
def strPre (a b : String) : Bool := a.toList.isPrefixOf b.toList

/-- JS `s.endsWith(p)`. -/
def strEnds (s p : String) : Bool := p.toList.isSuffixOf s.toList

/-- JS `String.prototype.toLowerCase` (ASCII). -/
def jsToLower (s : String) : String := String.mk (s.toList.map Char.toLower)

/-- JS `Array.prototype.join` with a separator. -/
def strJoin (sep : String) : List String → String
  | [] => ""
  | [x] => x
  | x :: rest => x ++ sep ++ strJoin sep rest

/-! ## Data model -/

/-- One `onUpdate` payload, as a closed tagged variant (the source uses an
untyped object with a `type` field). -/
inductive Event where
  | log (message : String)
  | sandboxCreated (sandboxId : String)
  | fileStart (path : String)
  | fileContent (path : String) (content : String) (isComplete : Bool)
  | status (status : String) (currentFile : String)
  | previewUrl (url : String)
  | complete (sandboxId : String) (previewUrl : Option String)
  | error (message : String)
deriving DecidableEq, Repr

/-- JSON values, for the results of the `JSON.parse` builtin (numbers are
modelled as integers; no claim involves numeric content). -/
inductive Json where
  | null
  | bool (b : Bool)
  | num (n : Int)
  | str (s : String)
  | arr (elems : List Json)
  | obj (fields : List (String × Json))

/-- The string entries of a JSON array, in order
(`files.filter((f) => typeof f === "string")`). -/
def jsonStrings : List Json → List String
  | [] => []
  | Json.str s :: rest => s :: jsonStrings rest
  | _ :: rest => jsonStrings rest

/-- Property access on a parsed JSON value (returns `none` where JS member
access yields `undefined`; access on `null` actually throws in JS, a corner
not exercised here). -/
def jsField (j : Json) (key : String) : Option Json :=
  match j with
  | Json.obj fields => fields.lookup key
  | _ => none

/-- JS truthiness of a parsed JSON value. -/
def jsTruthy (j : Json) : Bool :=
  match j with
  | Json.null => false
  | Json.bool b => b
  | Json.num n => n ≠ 0
  | Json.str s => s ≠ ""
  | Json.arr _ => true
  | Json.obj _ => true

/-- Template-literal display of a JSON value (only the string case occurs in
realistic runs; the rest approximate JS semantics). -/
def jsDisplay (j : Json) : String :=
  match j with
  | Json.str s => s
  | Json.num n => toString n
  | Json.bool b => if b then "true" else "false"
  | Json.null => "null"
  | Json.arr _ => ""
  | Json.obj _ => "[object Object]"

/-- Result record of `sandbox.commands.run`. -/
structure CmdResult where
  stdout : String
  stderr : String
  exitCode : Int
deriving DecidableEq, Repr

/-- Yield item of the file-generation async generators. -/
structure FileGenerationResult where
  path : String
  content : String
  isComplete : Bool
deriving DecidableEq, Repr

/-- The capability oracle: behaviour of the external services seen by one
run.  `planGen` models `generateText` (applied to the plan prompt), `stream`
models `streamText` (applied to the file prompt, giving the delta sequence
and an optional stream error), `parse` models the `JSON.parse` builtin,
`createResult`/`writeResult`/`runResult`/`readResult`/`hostResult`/
`makeDirResult` model the E2B sandbox operations (`hostResult` is indexed by
the number of earlier `getHost` calls), `localComponent` models the local
component files read by `copyShadcnComponents`, and `cfgContent` gives the
contents of the seeded configuration files, which are imported from a module
outside the available sources (modelled from the spec: a fixed set of
configuration files is seeded with fixed contents). -/
structure Oracle where
  googleKey : Bool
  e2bKey : Bool
  createResult : Except String String
  planGen : String → Except String String
  parse : String → Except String Json
  stream : String → List String × Option String
  writeResult : String → Option String
  runResult : String → Except String CmdResult
  readResult : String → Except String String
  hostResult : Nat → Except String String
  localComponent : String → Option String
  makeDirResult : Option String
  cfgContent : String → String

/-- The orchestrator's mutable instance state: the sandbox reference (its id
when created), the remote sandbox file system, the in-memory staging store
`memfs`, the preview URL, `context.files`, a counter of `getHost` calls made
so far (indexing `Oracle.hostResult`), and a counter of `cleanup`
invocations (for teardown accounting). -/
structure OrchState where
  sandbox : Option String
  envFs : List (String × String)
  memfs : List (String × String)
  previewUrl : Option String
  ctxFiles : List String
  hostCalls : Nat
  teardownCalls : Nat
deriving DecidableEq, Repr

/-- Fresh orchestrator state (constructor). -/
def initState : OrchState :=
  { sandbox := none, envFs := [], memfs := [], previewUrl := none,
    ctxFiles := [], hostCalls := 0, teardownCalls := 0 }

/-- Write (full overwrite) into a path-keyed map, keeping first-occurrence
order as a JS `Map` does. -/
def fsWrite (fs : List (String × String)) (p c : String) : List (String × String) :=
  match fs with
  | [] => [(p, c)]
  | (q, d) :: rest => if q = p then (p, c) :: rest else (q, d) :: fsWrite rest p c

/-- Lookup in a path-keyed map (`Map.prototype.get`). -/
def fsGet (fs : List (String × String)) (p : String) : Option String :=
  List.lookup p fs

/-- Result convention for the orchestrator's async methods: outcome (thrown
message or value), updated state, emitted events in order. -/
abbrev MRes (α : Type) := Except String α × OrchState × List Event

/-- The fixed configuration-file list used by the skip rule, the plan filter
and `copyConfigFiles`. -/
def configFiles : List String :=
  ["package.json", "tsconfig.json", "tailwind.config.js", "postcss.config.mjs",
   "next.config.js", "lib/utils.ts"]

/-- Does the path lie in the pre-provisioned UI component namespace? -/
def isUiPath (p : String) : Bool := strPre ("components/ui/") p

/-- A path the file generator skips (either branch of the skip rule). -/
def inSkipSet (p : String) : Bool := isUiPath p || configFiles.contains p

/-- The fixed catalog of shadcn/ui component files copied into the sandbox. -/
def uiComponents : List String :=
  ["accordion.tsx", "alert-dialog.tsx", "alert.tsx", "aspect-ratio.tsx", "avatar.tsx",
   "badge.tsx", "breadcrumb.tsx", "button.tsx", "calendar.tsx", "card.tsx",
   "carousel.tsx", "chart.tsx", "checkbox.tsx", "collapsible.tsx", "command.tsx",
   "context-menu.tsx", "dialog.tsx", "drawer.tsx", "dropdown-menu.tsx", "form.tsx",
   "hover-card.tsx", "input-otp.tsx", "input.tsx", "label.tsx", "menubar.tsx",
   "navigation-menu.tsx", "pagination.tsx", "popover.tsx", "progress.tsx", "radio-group.tsx",
   "resizable.tsx", "scroll-area.tsx", "select.tsx", "separator.tsx", "sheet.tsx",
   "sidebar.tsx", "skeleton.tsx", "slider.tsx", "sonner.tsx", "switch.tsx",
   "table.tsx", "tabs.tsx", "textarea.tsx", "toast.tsx", "toaster.tsx",
   "toggle-group.tsx", "toggle.tsx", "tooltip.tsx", "use-mobile.tsx", "use-toast.ts"]

/-! ## Plan generation -/

/-- The planning prompt sent to `generateText` in `generateProjectPlan`. -/
def planPrompt (desc : String) : String :=
  "You are an expert Next.js developer. Create a comprehensive file structure for a Next.js 14 project based on this description: \"" ++ desc ++ "\"\n\nRequirements:\n- Use Next.js 14 with App Router\n- All shadcn/ui components are ALREADY AVAILABLE in components/ui/ - DO NOT include them in the file list\n- The following files are ALREADY PROVIDED and should NOT be generated:\n  * package.json\n  * tsconfig.json  \n  * tailwind.config.js\n  * postcss.config.mjs\n  * next.config.js\n  * lib/utils.ts\n- Create all necessary pages, components, and utilities\n- Break UI into reusable components and make sure to import them correctly\n- Write the backend code in app/api folder\n- Focus on custom components, pages, and business logic only\n\nIMPORTANT: Do NOT include any files from components/ui/ or config files mentioned above as they are already provided.\n\nReturn ONLY a JSON array of file paths in order of importance:\nExample format: [\"app/layout.tsx\", \"app/page.tsx\", \"app/globals.css\", \"components/hero.tsx\"]\n\nFocus on creating a functional, complete project structure."

/-- The deterministic fallback plan built when the model response cannot be
parsed: a fixed baseline plus keyword-selected extras (dashboard/admin, else
blog, else ecommerce/shop, else a default pair). -/
def fallbackFiles (desc : String) : List String :=
  let baseFiles := ["app/layout.tsx", "app/page.tsx", "app/globals.css"]
  let d := jsToLower desc
  baseFiles ++
    (if jsIncludes d ("dashboard") || jsIncludes d ("admin") then
      ["components/dashboard/sidebar.tsx", "components/dashboard/header.tsx"]
    else if jsIncludes d ("blog") then
      ["app/blog/page.tsx", "components/blog/post-card.tsx"]
    else if jsIncludes d ("ecommerce") || jsIncludes d ("shop") then
      ["app/products/page.tsx", "components/product/product-card.tsx"]
    else
      ["components/hero.tsx", "components/navbar.tsx"])

/-- `generateProjectPlan`: key precondition, `generateText` call, fence
stripping, `JSON.parse`, array check and string filter, with the fallback on
any parse failure and the outer catch that logs and rethrows. -/
def generateProjectPlan (o : Oracle) (desc : String) (st : OrchState) :
    MRes (List String) :=
  if !o.googleKey then
    (Except.error ("GOOGLE_GENERATIVE_AI_API_KEY environment variable is not set"), st,
     [Event.log ("Project plan generation failed: GOOGLE_GENERATIVE_AI_API_KEY environment variable is not set")])
  else
    let ev0 := Event.log ("Generating project structure with AI...")
    match o.planGen (planPrompt desc) with
    | Except.error m =>
        (Except.error m, st, [ev0, Event.log ("Project plan generation failed: " ++ m)])
    | Except.ok text =>
      match o.parse (cleanPlanText text) with
      | Except.ok (Json.arr elems) =>
          let files := jsonStrings elems
          (Except.ok files, { st with ctxFiles := files },
           [ev0, Event.log ("AI generated project plan: " ++ toString files.length ++ " files")])
      | _ =>
          let files := fallbackFiles desc
          (Except.ok files, { st with ctxFiles := files },
           [ev0, Event.log ("Failed to parse AI response, using smart fallback structure for: \"" ++ desc ++ "\"")])

/-! ## File generation -/

/-- The shared context block embedded in every file prompt. -/
def contextInfo (desc : String) (files : List String) (filePath : String) : String :=
  "\nProject: " ++ desc ++
  "\nFramework: Next.js 14 with App Router, TypeScript, Tailwind CSS\nCurrent file: " ++ filePath ++
  "\nOther files in project: " ++ strJoin (", ") (files.filter (fun f => f ≠ filePath))

/-- The path-specific prompt selection of `generateFileToMemfs` (root layout,
generic page, component namespace, global stylesheet, generic fallback). -/
def filePrompt (desc : String) (files : List String) (filePath : String) : String :=
  let ci := contextInfo desc files filePath
  if strEnds filePath ("layout.tsx") then
    "Create the root layout.tsx for: \"" ++ desc ++ "\"\n" ++ ci ++
    "\n\nInclude:\n- Proper HTML structure\n- Font loading (Inter or similar)\n- Metadata\n- Global CSS import\n- Clean, semantic structure\n\nNote: All shadcn/ui components are already available in components/ui/ and can be imported directly.\n- Note:(very important) Always use default imports for custom made components coming from @/components/***\n\nReturn only the TypeScript React code."
  else if strEnds filePath ("page.tsx") then
    "Create " ++ filePath ++ " for: \"" ++ desc ++ "\"\n" ++ ci ++
    "\n\nRequirements:\n- Use TypeScript and React\n- Use Tailwind CSS for styling\n- Create a functional, attractive page that matches the project description\n- Include proper components and layout\n- Make it production-ready and visually appealing\n- make sure to use default imports\n- use \"use client\"\nImportant: Use default imports for all components coming from @/components/***\n\nNote: All shadcn/ui components (Button, Card, Input, etc.) are already available in components/ui/ and can be imported directly.\nExample: import { Button } from \"@/components/ui/button\"\n\nReturn only the TypeScript React code."
  else if jsIncludes filePath ("components/") then
    "Create the component " ++ filePath ++ " for: \"" ++ desc ++ "\"\n" ++ ci ++
    "\n\nRequirements:\n- Use TypeScript and React\n- Use Tailwind CSS for styling\n- Create a reusable, well-structured component\n- Include proper props and types\n- Make it functional and production-ready\n- use \"use client\"\n- Note:(very important) Always use default imports for custom made components coming from @/components/***\n\n\nNote: All shadcn/ui components (Button, Card, Input, Dialog, etc.) are already available in components/ui/ and can be imported directly.\nExample: import { Button } from \"@/components/ui/button\"\n\nReturn only the TypeScript React code."
  else if filePath = "app/globals.css" then
    "Create globals.css with Tailwind CSS and custom styles for: \"" ++ desc ++ "\"\nInclude Tailwind directives and any custom CSS needed.\nReturn only the CSS code."
  else
    "Create " ++ filePath ++ " for the project: \"" ++ desc ++ "\"\n" ++ ci ++
    "\n\nRequirements:\n- Use appropriate technology for the file type\n- Make it functional and production-ready\n- Follow best practices\n- Integrate well with the overall project\n\nReturn only the file content, no explanations."

/-- Consume the delta stream: accumulate each delta into the running buffer
and record, per delta, the yielded (cumulative, incomplete) result and the
mirrored `file_content` event.  Returns the full accumulated text, the
streaming yields and the streaming events. -/
def streamYieldLoop (path acc : String) :
    List String → String × List FileGenerationResult × List Event
  | [] => (acc, [], [])
  | d :: ds =>
    let acc1 := acc ++ d
    let (fin, ys, evs) := streamYieldLoop path acc1 ds
    (fin, { path := path, content := acc1, isComplete := false } :: ys,
     Event.fileContent path acc1 false :: evs)

/-- Output of one `generateFileToMemfs` invocation: optional propagated
error, updated state, events, yields, and the prompts sent to the
text-generation capability. -/
structure GenFileOut where
  err : Option String
  st : OrchState
  events : List Event
  yields : List FileGenerationResult
  calls : List String

/-- `generateFileToMemfs`: skip rules, `file_start`, prompt selection,
streamed accumulation, fence stripping and trim, staging-store update,
final complete yield, and error propagation on a stream failure. -/
def generateFileToMemfs (o : Oracle) (desc : String) (st : OrchState)
    (filePath : String) : GenFileOut :=
  if isUiPath filePath then
    { err := none, st := st,
      events := [Event.log ("✓ Skipping " ++ filePath ++ " - shadcn/ui component already available")],
      yields := [], calls := [] }
  else if configFiles.contains filePath then
    { err := none, st := st,
      events := [Event.log ("✓ Skipping " ++ filePath ++ " - config file already provided")],
      yields := [], calls := [] }
  else
    let prompt := filePrompt desc st.ctxFiles filePath
    let evStart := Event.fileStart filePath
    let evGen := Event.log ("Generating " ++ filePath ++ " with AI...")
    let (ds, serr) := o.stream prompt
    let (full, ys, evs) := streamYieldLoop filePath "" ds
    match serr with
    | some m =>
        { err := some m, st := st,
          events := evStart :: evGen :: evs ++
            [Event.log ("Failed to generate " ++ filePath ++ ": " ++ m)],
          yields := ys, calls := [prompt] }
    | none =>
        let cleaned := cleanContent full
        let st1 := { st with memfs := fsWrite st.memfs filePath cleaned }
        { err := none, st := st1,
          events := evStart :: evGen :: evs ++
            [Event.log ("✓ Generated " ++ filePath ++ " (" ++ toString cleaned.length ++ " chars) - stored in memory"),
             Event.fileContent filePath cleaned true],
          yields := ys ++ [{ path := filePath, content := cleaned, isComplete := true }],
          calls := [prompt] }

/-! ## Sandbox operations -/

/-- `runCommand`: null-guard, command log, stdout/stderr logs, exit-code
check, and the catch that logs the failure and rethrows. -/
def runCommand (o : Oracle) (st : OrchState) (command : String) : MRes Unit :=
  match st.sandbox with
  | none => (Except.error ("Sandbox not initialized"), st, [])
  | some _ =>
    let ev0 := Event.log ("Running: " ++ command)
    match o.runResult command with
    | Except.error m =>
        (Except.error m, st, [ev0, Event.log ("Command failed: " ++ m)])
    | Except.ok r =>
        let outEvs :=
          (if r.stdout ≠ "" then [Event.log r.stdout] else []) ++
          (if r.stderr ≠ "" then [Event.log ("Error: " ++ r.stderr)] else [])
        if r.exitCode ≠ 0 then
          let m := "Command exited with code " ++ toString r.exitCode
          (Except.error m, st, ev0 :: outEvs ++ [Event.log ("Command failed: " ++ m)])
        else
          (Except.ok (), st, ev0 :: outEvs)

/-- Seeding loop of `copyConfigFiles`: write each fixed file (full
overwrite), logging each success; a write failure aborts the loop. -/
def copyConfigLoop (o : Oracle) (st : OrchState) :
    List String → Except String Unit × OrchState × List Event
  | [] => (Except.ok (), st, [])
  | p :: rest =>
    match o.writeResult p with
    | some m => (Except.error m, st, [])
    | none =>
      let st1 := { st with envFs := fsWrite st.envFs p (o.cfgContent p) }
      let (r, st2, evs) := copyConfigLoop o st1 rest
      (r, st2, Event.log ("✓ Copied " ++ p ++ " to sandbox") :: evs)

/-- `copyConfigFiles`: null-guard, header log, seeding loop, footer log, and
the catch that logs and rethrows a wrapped message. -/
def copyConfigFiles (o : Oracle) (st : OrchState) : MRes Unit :=
  match st.sandbox with
  | none => (Except.error ("Sandbox not initialized"), st, [])
  | some _ =>
    let ev0 := Event.log ("Copying configuration files to sandbox...")
    match copyConfigLoop o st configFiles with
    | (Except.ok _, st1, evs) =>
        (Except.ok (), st1,
         ev0 :: evs ++ [Event.log ("✓ All configuration files copied to sandbox")])
    | (Except.error m, st1, evs) =>
        (Except.error ("Failed to copy config files: " ++ m), st1,
         ev0 :: evs ++ [Event.log ("❌ Failed to copy config files: " ++ m)])

/-- Component-copy loop of `copyShadcnComponents`: each existing local file
is written into the `components/ui/` namespace; per-file failures are logged
(with a JS error stringification) and swallowed, missing local files are
silently skipped. -/
def copyShadcnLoop (o : Oracle) (st : OrchState) :
    List String → OrchState × List Event
  | [] => (st, [])
  | f :: rest =>
    match o.localComponent f with
    | none => copyShadcnLoop o st rest
    | some content =>
      match o.writeResult ("components/ui/" ++ f) with
      | some m =>
        let (st1, evs) := copyShadcnLoop o st rest
        (st1, Event.log ("⚠️ Failed to copy " ++ f ++ ": Error: " ++ m) :: evs)
      | none =>
        let st1 := { st with envFs := fsWrite st.envFs ("components/ui/" ++ f) content }
        let (st2, evs) := copyShadcnLoop o st1 rest
        (st2, Event.log ("✓ Copied " ++ f ++ " to sandbox") :: evs)

/-- `copyShadcnComponents`: null-guard, header log, directory creation (a
failure there aborts with the wrapped message), copy loop, footer log. -/
def copyShadcnComponents (o : Oracle) (st : OrchState) : MRes Unit :=
  match st.sandbox with
  | none => (Except.error ("Sandbox not initialized"), st, [])
  | some _ =>
    let ev0 := Event.log ("Copying shadcn/ui components to sandbox...")
    match o.makeDirResult with
    | some m =>
        (Except.error ("Failed to copy shadcn/ui components: " ++ m), st,
         [ev0, Event.log ("❌ Failed to copy shadcn/ui components: " ++ m)])
    | none =>
      let (st1, evs) := copyShadcnLoop o st uiComponents
      (Except.ok (), st1,
       ev0 :: evs ++ [Event.log ("✓ All shadcn/ui components copied to sandbox")])

/-- `installDependencies`: null-guard, header log, `npm install` through
`runCommand`, success log or wrapped failure. -/
def installDependencies (o : Oracle) (st : OrchState) : MRes Unit :=
  match st.sandbox with
  | none => (Except.error ("Sandbox not initialized"), st, [])
  | some _ =>
    let ev0 := Event.log ("Installing dependencies in sandbox...")
    match runCommand o st ("npm install") with
    | (Except.ok _, st1, evs) =>
        (Except.ok (), st1, ev0 :: evs ++ [Event.log ("✓ Dependencies installed successfully")])
    | (Except.error m, st1, evs) =>
        (Except.error ("Failed to install dependencies: " ++ m), st1,
         ev0 :: evs ++ [Event.log ("❌ Failed to install dependencies: " ++ m)])

/-- `createSandboxAsync`: the provisioning task.  Emits its opening log
synchronously at spawn (the head of its event list), checks the API-key
precondition (thrown before the try, hence never wrapped), then creates the
sandbox and runs the seeding and install steps; any failure inside the try
is logged and rethrown wrapped in the creation message. -/
def createSandboxAsync (o : Oracle) (st : OrchState) : MRes String :=
  let ev0 := Event.log ("Creating E2B sandbox (async)...")
  if !o.e2bKey then
    (Except.error ("E2B_API_KEY environment variable is not set"), st, [ev0])
  else
    match o.createResult with
    | Except.error m =>
        (Except.error ("Failed to create E2B sandbox: " ++ m), st,
         [ev0, Event.log ("❌ Failed to create E2B sandbox: " ++ m)])
    | Except.ok sid =>
      let st1 := { st with sandbox := some sid }
      let evs1 := [Event.sandboxCreated sid,
                   Event.log ("✓ E2B sandbox created successfully: " ++ sid)]
      match copyConfigFiles o st1 with
      | (Except.error m, st2, evs2) =>
          (Except.error ("Failed to create E2B sandbox: " ++ m), st2,
           ev0 :: evs1 ++ evs2 ++ [Event.log ("❌ Failed to create E2B sandbox: " ++ m)])
      | (Except.ok _, st2, evs2) =>
        match copyShadcnComponents o st2 with
        | (Except.error m, st3, evs3) =>
            (Except.error ("Failed to create E2B sandbox: " ++ m), st3,
             ev0 :: evs1 ++ evs2 ++ evs3 ++ [Event.log ("❌ Failed to create E2B sandbox: " ++ m)])
        | (Except.ok _, st3, evs3) =>
          match installDependencies o st3 with
          | (Except.error m, st4, evs4) =>
              (Except.error ("Failed to create E2B sandbox: " ++ m), st4,
               ev0 :: evs1 ++ evs2 ++ evs3 ++ evs4 ++
                 [Event.log ("❌ Failed to create E2B sandbox: " ++ m)])
          | (Except.ok _, st4, evs4) =>
              (Except.ok sid, st4, ev0 :: evs1 ++ evs2 ++ evs3 ++ evs4)

/-! ## Server readiness probing -/

/-- The waiting log line emitted for one failed readiness attempt. -/
def waitMsg (port attempt maxRetries : Nat) : String :=
  "Waiting for server on port " ++ toString port ++ "... (" ++
    toString attempt ++ "/" ++ toString maxRetries ++ ")"

/-- The retry loop of `waitForServer`, indexed by the loop counter `i` and
structurally by the number `rem` of remaining iterations (the loop runs for
`i` from 0 while `i < maxRetries`, so `rem = maxRetries - i`).  When the
sandbox reference is present, each iteration makes one `getHost` attempt:
success logs readiness and returns `true`; failure logs a waiting line with
the attempt count, runs a best-effort process listing (its own errors
swallowed), sleeps and retries.  When the sandbox reference is null the
iteration does nothing (the try body completes without throwing).  The
`hostCalls` counter indexes `Oracle.hostResult` per attempt. -/
def waitForServerLoop (o : Oracle) (st : OrchState) (port maxRetries i : Nat) :
    Nat → Bool × OrchState × List Event
  | 0 => (false, st, [])
  | rem + 1 =>
    match st.sandbox with
    | none => waitForServerLoop o st port maxRetries (i + 1) rem
    | some _ =>
      match o.hostResult st.hostCalls with
      | Except.ok host =>
          (true, { st with hostCalls := st.hostCalls + 1 },
           [Event.log ("✓ Server is ready at https://" ++ host)])
      | Except.error _ =>
        let ev1 := Event.log (waitMsg port (i + 1) maxRetries)
        let psEvs := match o.runResult ("ps aux | grep node") with
          | Except.ok r => [Event.log ("Process check: " ++ r.stdout)]
          | Except.error _ => []
        let (b, st2, evs) :=
          waitForServerLoop o { st with hostCalls := st.hostCalls + 1 } port maxRetries (i + 1) rem
        (b, st2, ev1 :: psEvs ++ evs)

/-- `waitForServer` starts the loop at attempt 0 with the full budget. -/
def waitForServer (o : Oracle) (st : OrchState) (port maxRetries : Nat) :
    Bool × OrchState × List Event :=
  waitForServerLoop o st port maxRetries 0 maxRetries

/-! ## Staging flush and build -/

/-- Transfer loop of `transferFilesToSandbox` over the staged paths: entries
with truthy (non-empty, present) content are written into the sandbox (full
overwrite) and logged, counting transfers; a write failure aborts. -/
def transferLoop (o : Oracle) (st : OrchState) :
    List String → Except String Unit × Nat × OrchState × List Event
  | [] => (Except.ok (), 0, st, [])
  | p :: rest =>
    match fsGet st.memfs p with
    | none => transferLoop o st rest
    | some c =>
      if c = "" then transferLoop o st rest
      else
        match o.writeResult p with
        | some m => (Except.error m, 0, st, [])
        | none =>
          let st1 := { st with envFs := fsWrite st.envFs p c }
          let (r, n, st2, evs) := transferLoop o st1 rest
          (r, n + 1, st2, Event.log ("✓ Transferred " ++ p ++ " to sandbox") :: evs)

/-- `transferFilesToSandbox`: null-guard, header log, transfer loop over the
staged keys, summary log, or the wrapped failure. -/
def transferFilesToSandbox (o : Oracle) (st : OrchState) : MRes Unit :=
  match st.sandbox with
  | none => (Except.error ("Sandbox not initialized"), st, [])
  | some _ =>
    let ev0 := Event.log ("Transferring generated files from memory to sandbox...")
    match transferLoop o st (st.memfs.map Prod.fst) with
    | (Except.ok _, n, st1, evs) =>
        (Except.ok (), st1,
         ev0 :: evs ++ [Event.log ("✓ Successfully transferred " ++ toString n ++ " files to sandbox")])
    | (Except.error m, _, st1, evs) =>
        (Except.error ("Failed to transfer files to sandbox: " ++ m), st1,
         ev0 :: evs ++ [Event.log ("❌ Failed to transfer files to sandbox: " ++ m)])

/-- The package.json inspection logs in `buildProject` (read, parse, dev
script check; every failure is swallowed into a log line). -/
def pkgCheckEvents (o : Oracle) : List Event :=
  match o.readResult ("package.json") with
  | Except.error m => [Event.log ("Could not read package.json: Error: " ++ m)]
  | Except.ok pj =>
    let found := Event.log ("Package.json found - checking dev script...")
    match o.parse pj with
    | Except.error m => [found, Event.log ("Could not read package.json: Error: " ++ m)]
    | Except.ok pkg =>
      match jsField pkg ("scripts") with
      | some scripts =>
        if jsTruthy scripts then
          match jsField scripts ("dev") with
          | some dev =>
            if jsTruthy dev then [found, Event.log ("Dev script: " ++ jsDisplay dev)]
            else [found]
          | none => [found]
        else [found]
      | none => [found]

/-- `buildProject`: status event, staging flush, dev-server start (the
background command is fire-and-forget; a rejection is logged by its catch,
sequenced here at its launch point), readiness probing with budget 15 on
port 3000, then either the preview-URL events (a second `getHost` call) or
the timeout diagnosis (warning plus dev-server log read), and the closing
log.  Only the staging flush can throw. -/
def buildProject (o : Oracle) (st : OrchState) : MRes Unit :=
  let ev0 := Event.status ("building") ("")
  match transferFilesToSandbox o st with
  | (Except.error m, st1, evs1) =>
      (Except.error m, st1, ev0 :: evs1 ++ [Event.log ("Build failed: " ++ m)])
  | (Except.ok _, st1, evs1) =>
    let ev2 := Event.log ("Starting development server...")
    let pkgEvs := pkgCheckEvents o
    let devEvs := match o.runResult ("nohup npm run dev > /tmp/next.log 2>&1 &") with
      | Except.error m => [Event.log ("Dev server command completed: Error: " ++ m)]
      | Except.ok _ => []
    let ev3 := Event.log ("Waiting for development server to start...")
    let (ready, st2, wEvs) := waitForServer o st1 3000 15
    if ready then
      match o.hostResult st2.hostCalls with
      | Except.ok host =>
        let url := "https://" ++ host
        let st3 := { st2 with previewUrl := some url, hostCalls := st2.hostCalls + 1 }
        (Except.ok (), st3,
         ev0 :: evs1 ++ [ev2] ++ pkgEvs ++ devEvs ++ [ev3] ++ wEvs ++
           [Event.previewUrl url, Event.log ("✓ Preview URL: " ++ url),
            Event.log ("✓ Build completed successfully!")])
      | Except.error m =>
        let st3 := { st2 with hostCalls := st2.hostCalls + 1 }
        (Except.ok (), st3,
         ev0 :: evs1 ++ [ev2] ++ pkgEvs ++ devEvs ++ [ev3] ++ wEvs ++
           [Event.log ("Could not get preview URL: Error: " ++ m),
            Event.log ("✓ Build completed successfully!")])
    else
      let diagEvs := Event.log ("⚠️ Development server did not start in time - checking logs...") ::
        (match o.readResult ("/tmp/next.log") with
         | Except.ok logs => [Event.log ("Dev server logs: " ++ logs)]
         | Except.error m => [Event.log ("Could not read dev server logs: Error: " ++ m)])
      (Except.ok (), st2,
       ev0 :: evs1 ++ [ev2] ++ pkgEvs ++ devEvs ++ [ev3] ++ wEvs ++ diagEvs ++
         [Event.log ("✓ Build completed successfully!")])

/-! ## Pipeline composition -/

/-- Per-file loop of `generateProject`: a `status` event per file, the file
generator's events and yields, stopping at the first propagated error. -/
def genFilesLoop (o : Oracle) (desc : String) (st : OrchState) :
    List String → Except String Unit × OrchState × List Event × List FileGenerationResult
  | [] => (Except.ok (), st, [], [])
  | f :: rest =>
    let out := generateFileToMemfs o desc st f
    match out.err with
    | some m => (Except.error m, out.st, Event.status ("generating") f :: out.events, out.yields)
    | none =>
      let (r, st2, evs2, ys2) := genFilesLoop o desc out.st rest
      (r, st2, Event.status ("generating") f :: out.events ++ evs2, out.yields ++ ys2)

/-- The substring classification of the catch block in `generateProject`,
mapping a raw error message to the user-facing one. -/
def classifyError (message : String) : String :=
  if jsIncludes message ("wasn\x27t found") || jsIncludes message ("not found") then
    "The sandbox has expired or was terminated. Please try generating the project again."
  else if jsIncludes message ("timeout") || jsIncludes message ("timed out") then
    "The operation timed out. Please check your internet connection and try again."
  else if jsIncludes message ("API key") || jsIncludes message ("authentication") then
    "Authentication failed. Please check your E2B API key configuration."
  else if jsIncludes message ("quota") || jsIncludes message ("limit") then
    "API quota exceeded. Please check your E2B account limits."
  else message

/-- The two events emitted by the catch block of `generateProject`: the
single error event with the classified message, then the raw failure log. -/
def catchEvs (m : String) : List Event :=
  [Event.error (classifyError m), Event.log ("❌ Generation failed: " ++ m)]

/-- The decomposed emissions of one `generateProject` run.  The provisioning
task (`createSandboxAsync`) runs concurrently with the pre-join main task;
the two touch disjoint parts of the orchestrator state (sandbox/remote fs
versus context files/staging store), so the state is threaded provisioning
first without loss; the events are kept separate and recombined by
`RunTrace` under an arbitrary cooperative interleaving.  `preEvs` are the
synchronous opening logs (including the provisioning task's spawn log),
`floatEvs` the provisioning task's later events, `mainEvs` the main task's
events up to the join (including the catch events if it fails before the
join), and `postEvs` everything after the join (always after `floatEvs`,
because the join awaits the provisioning task). -/
structure RunParts where
  preEvs : List Event
  floatEvs : List Event
  mainEvs : List Event
  postEvs : List Event
  outcome : Except String Unit
  finalSt : OrchState

/-- The run decomposition of `generateProject` (see `RunParts`). -/
def generateProjectParts (o : Oracle) (desc : String) : RunParts :=
  let st0 := initState
  let (sbRes, stSb, sbEvs) := createSandboxAsync o st0
  let preFixed := [Event.log ("🚀 Starting AI project generation with parallel processing..."),
                   Event.log ("⚡ Starting sandbox setup and AI planning simultaneously...")] ++
                  sbEvs.take 1
  let floatEvs := sbEvs.drop 1
  let evPlanning := Event.log ("🧠 AI planning in progress...")
  match generateProjectPlan o desc stSb with
  | (Except.error m, stP, planEvs) =>
      { preEvs := preFixed, floatEvs := floatEvs,
        mainEvs := evPlanning :: planEvs ++ catchEvs m,
        postEvs := [], outcome := Except.error m, finalSt := stP }
  | (Except.ok files, stP, planEvs) =>
    let evDone := Event.log ("✓ AI planning completed: " ++ toString files.length ++ " files planned")
    let filtered := files.filter (fun f => !isUiPath f && !configFiles.contains f)
    let filterEvs :=
      if filtered.length ≠ files.length then
        [Event.log ("Filtered out " ++ toString (files.length - filtered.length) ++
          " pre-provided files from generation list")]
      else []
    let evFire := Event.log ("🔥 Starting AI code generation in memory...")
    match genFilesLoop o desc stP filtered with
    | (Except.error m, stG, genEvs, _) =>
        { preEvs := preFixed, floatEvs := floatEvs,
          mainEvs := evPlanning :: planEvs ++ [evDone] ++ filterEvs ++ [evFire] ++ genEvs ++ catchEvs m,
          postEvs := [], outcome := Except.error m, finalSt := stG }
    | (Except.ok _, stG, genEvs, _) =>
      let mainDone := evPlanning :: planEvs ++ [evDone] ++ filterEvs ++ [evFire] ++ genEvs ++
        [Event.log ("✓ All files generated in memory, waiting for sandbox..."),
         Event.log ("⏳ Waiting for sandbox setup to complete...")]
      match sbRes with
      | Except.error m =>
          { preEvs := preFixed, floatEvs := floatEvs, mainEvs := mainDone,
            postEvs := catchEvs m, outcome := Except.error m, finalSt := stG }
      | Except.ok sid =>
        let evReady := Event.log ("✓ Sandbox ready: " ++ sid)
        match transferFilesToSandbox o stG with
        | (Except.error m, stT, tEvs) =>
            { preEvs := preFixed, floatEvs := floatEvs, mainEvs := mainDone,
              postEvs := evReady :: tEvs ++ catchEvs m,
              outcome := Except.error m, finalSt := stT }
        | (Except.ok _, stT, tEvs) =>
          match buildProject o stT with
          | (Except.error m, stB, bEvs) =>
              { preEvs := preFixed, floatEvs := floatEvs, mainEvs := mainDone,
                postEvs := evReady :: tEvs ++ bEvs ++ catchEvs m,
                outcome := Except.error m, finalSt := stB }
          | (Except.ok _, stB, bEvs) =>
              { preEvs := preFixed, floatEvs := floatEvs, mainEvs := mainDone,
                postEvs := evReady :: tEvs ++ bEvs ++
                  [Event.complete (stB.sandbox.getD "") stB.previewUrl],
                outcome := Except.ok (), finalSt := stB }

/-- An interleaving of two event sequences, each preserving its own order:
the possible merges produced by the single-threaded cooperative scheduler. -/
inductive Interleave : List Event → List Event → List Event → Prop where
  | nil : Interleave [] [] []
  | left {x xs ys zs} : Interleave xs ys zs → Interleave (x :: xs) ys (x :: zs)
  | right {y xs ys zs} : Interleave xs ys zs → Interleave xs (y :: ys) (y :: zs)

/-- The possible full `onUpdate` traces of one `generateProject` run: the
fixed synchronous opening, then any interleaving of the main task's
pre-join events with the provisioning task's events, then the post-join
events (the join point orders every provisioning event before them). -/
def RunTrace (o : Oracle) (desc : String) (tr : List Event) : Prop :=
  let parts := generateProjectParts o desc
  ∃ z, Interleave parts.mainEvs parts.floatEvs z ∧
    tr = parts.preEvs ++ z ++ parts.postEvs

/-! ## Remaining public operations -/

/-- `saveFileEdit`: null-guard, sandbox write, staging-store update when the
path is already staged, success log; a write failure rethrows wrapped. -/
def saveFileEdit (o : Oracle) (st : OrchState) (filePath content : String) : MRes Unit :=
  match st.sandbox with
  | none => (Except.error ("Sandbox not initialized"), st, [])
  | some _ =>
    match o.writeResult filePath with
    | some m => (Except.error ("Failed to save file " ++ filePath ++ ": " ++ m), st, [])
    | none =>
      let st1 := { st with envFs := fsWrite st.envFs filePath content }
      let st2 :=
        if (fsGet st1.memfs filePath).isSome then
          { st1 with memfs := fsWrite st1.memfs filePath content }
        else st1
      (Except.ok (), st2, [Event.log ("✓ File " ++ filePath ++ " saved successfully")])

/-- `restartDevServer`: null-guard, restart log, two pkill commands (their
transport failures rethrow wrapped), a fire-and-forget dev-server start
whose errors are silently swallowed, success log. -/
def restartDevServer (o : Oracle) (st : OrchState) : MRes Unit :=
  match st.sandbox with
  | none => (Except.error ("Sandbox not initialized"), st, [])
  | some _ =>
    let ev0 := Event.log ("Restarting development server...")
    match o.runResult ("pkill -f \x27next dev\x27 || true") with
    | Except.error m => (Except.error ("Failed to restart dev server: " ++ m), st, [ev0])
    | Except.ok _ =>
      match o.runResult ("pkill -f \x27node.*next\x27 || true") with
      | Except.error m => (Except.error ("Failed to restart dev server: " ++ m), st, [ev0])
      | Except.ok _ =>
          (Except.ok (), st, [ev0, Event.log ("✓ Development server restarted")])

/-- `readFileContent`: null-guard, sandbox read, wrapped failure. -/
def readFileContent (o : Oracle) (st : OrchState) (filePath : String) : MRes String :=
  match st.sandbox with
  | none => (Except.error ("Sandbox not initialized"), st, [])
  | some _ =>
    match o.readResult filePath with
    | Except.ok content => (Except.ok content, st, [])
    | Except.error m =>
        (Except.error ("Failed to read file " ++ filePath ++ ": " ++ m), st, [])

/-- Strip one leading "./" (the JS `replace` with an anchored pattern). -/
def stripDotSlash (s : String) : String :=
  if strPre ("./") s then String.mk (s.toList.drop 2) else s

/-- `getProjectFiles`: null-guard, staged keys plus a best-effort sandbox
listing (split on newlines, blank lines dropped, leading "./" stripped),
first-occurrence deduplication, and the final path filter. -/
def getProjectFiles (o : Oracle) (st : OrchState) : MRes (List String) :=
  match st.sandbox with
  | none => (Except.error ("Sandbox not initialized"), st, [])
  | some _ =>
    match o.runResult ("find . -name \x27*.tsx\x27 -o -name \x27*.ts\x27 -o -name \x27*.css\x27 | grep -v node_modules | grep -v .next | head -20") with
    | Except.error m => (Except.error ("Failed to get project files: " ++ m), st, [])
    | Except.ok r =>
      let memfsFiles := st.memfs.map Prod.fst
      let sandboxFiles :=
        if r.stdout ≠ "" then
          ((r.stdout.splitOn "\n").filter (fun line => line.trim ≠ "")).map stripDotSlash
        else []
      let allFiles := (memfsFiles ++ sandboxFiles).eraseDups
      (Except.ok (allFiles.filter (fun f =>
          f ≠ "" && !strPre ("node_modules/") f && !strPre (".next/") f)), st, [])

/-- `exportProject`: null-guard, zip command through `runCommand`, zip read
(the archive is modelled as its string contents), wrapped failures. -/
def exportProject (o : Oracle) (st : OrchState) : MRes String :=
  match st.sandbox with
  | none => (Except.error ("Sandbox not initialized"), st, [])
  | some _ =>
    match runCommand o st ("zip -r /tmp/project.zip .") with
    | (Except.error m, st1, evs) => (Except.error ("Export failed: " ++ m), st1, evs)
    | (Except.ok _, st1, evs) =>
      match o.readResult ("/tmp/project.zip") with
      | Except.ok z => (Except.ok z, st1, evs)
      | Except.error m => (Except.error ("Export failed: " ++ m), st1, evs)

/-- `cleanup`: clears the staging store and logs; it does not touch the
sandbox reference and issues no destroy call against the environment.  The
`teardownCalls` counter records that this teardown routine was invoked. -/
def cleanup (st : OrchState) : OrchState × List Event :=
  ({ st with memfs := [], teardownCalls := st.teardownCalls + 1 },
   [Event.log ("Project orchestrator cleaned up")])

/-! ## Event classification helpers -/

/-- Terminal events: `complete` and `error`. -/
def isTerminal : Event → Bool
  | Event.complete _ _ => true
  | Event.error _ => true
  | _ => false

/-- Error events. -/
def isErrorEv : Event → Bool
  | Event.error _ => true
  | _ => false

/-- Log events. -/
def isLogEv : Event → Bool
  | Event.log _ => true
  | _ => false

/-- Environment-created notices. -/
def isSandboxCreatedEv : Event → Bool
  | Event.sandboxCreated _ => true
  | _ => false

/-- The events emitted strictly after the first terminal event. -/
def afterFirstTerminal (tr : List Event) : List Event :=
  (tr.dropWhile (fun e => !isTerminal e)).drop 1

/-- After the first terminal event, only trailing failure-path log lines and
events of the still-running provisioning task (logs or the
environment-created notice) may occur. -/
def goodTail : List Event → Prop
  | [] => True
  | e :: rest =>
    if isTerminal e then ∀ x ∈ rest, isLogEv x = true ∨ isSandboxCreatedEv x = true
    else goodTail rest

/-- No terminal event occurs in the list. -/
def NoTerm (l : List Event) : Prop := ∀ e ∈ l, isTerminal e = false

/-- Every event in the list is a log line or an environment-created notice
(the only event kinds the provisioning task emits). -/
def LogSb (l : List Event) : Prop :=
  ∀ e ∈ l, isLogEv e = true ∨ isSandboxCreatedEv e = true

/-! ## String predicates used by the claims -/

/-- Concatenation of a delta sequence. -/
def concatAll : List String → String
  | [] => ""
  | d :: ds => d ++ concatAll ds

/-- The cumulative contents observed while streaming deltas onto `acc`. -/
def cumContents (acc : String) : List String → List String
  | [] => []
  | d :: ds => (acc ++ d) :: cumContents (acc ++ d) ds

/-- The string contains no backtick at all. -/
def noBt (s : String) : Bool := s.toList.all (fun c => c ≠ btick)

/-- The string contains a code-fence marker. -/
def hasFence (s : String) : Bool := jsIncludes s "```"

/-- JS `trim` on a string. -/
def strTrim (s : String) : String := String.mk (trimChars s.toList)

/-! ## Concrete oracles and traces for the witnesses and counterexamples -/

/-- A benign baseline oracle: both keys present, sandbox creation succeeds,
plan response unparseable (exercising the fallback), empty streams, writes
succeed, commands succeed with empty output, reads fail, the server never
becomes reachable, no local component files. -/
def baseOracle : Oracle where
  googleKey := true
  e2bKey := true
  createResult := Except.ok "sb1"
  planGen := fun _ => Except.ok "[]"
  parse := fun _ => Except.error "Unexpected token"
  stream := fun _ => ([], none)
  writeResult := fun _ => none
  runResult := fun _ => Except.ok { stdout := "", stderr := "", exitCode := 0 }
  readResult := fun _ => Except.error "ENOENT"
  hostResult := fun _ => Except.error "no host"
  localComponent := fun _ => none
  makeDirResult := none
  cfgContent := fun _ => "cfg"

/-- Oracle for the C1 counterexample: planning fails at once (missing text
generator credential) while provisioning succeeds in the background. -/
def c1Oracle : Oracle := { baseOracle with googleKey := false }

/-- Run decomposition of the C1 counterexample run. -/
def c1Parts : RunParts := generateProjectParts c1Oracle "demo"

/-- A realizable full trace of the C1 counterexample run: the provisioning
task resolves only after the main task already failed, so its events trail
the terminal error event. -/
def c1Trace : List Event :=
  c1Parts.preEvs ++ (c1Parts.mainEvs ++ c1Parts.floatEvs) ++ c1Parts.postEvs

/-- Oracle for the C1 witness: a fully successful quiet run. -/
def c1wOracle : Oracle :=
  { baseOracle with hostResult := fun _ => Except.ok "host.e2b.dev" }

/-- Run decomposition of the C1 witness run. -/
def c1wParts : RunParts := generateProjectParts c1wOracle "demo"

/-- Canonical trace of the C1 witness run. -/
def c1wTrace : List Event :=
  c1wParts.preEvs ++ (c1wParts.mainEvs ++ c1wParts.floatEvs) ++ c1wParts.postEvs

/-- Oracle for the C2 scenario: environment creation throws a message
containing "quota exceeded"; everything else benign. -/
def c2Oracle : Oracle := { baseOracle with createResult := Except.error "quota exceeded" }

/-- Run decomposition of the C2 quota run. -/
def c2Parts : RunParts := generateProjectParts c2Oracle "demo"

/-- Canonical trace of the C2 quota run. -/
def c2Trace : List Event :=
  c2Parts.preEvs ++ (c2Parts.mainEvs ++ c2Parts.floatEvs) ++ c2Parts.postEvs

/-- Oracle family for the C3 end-to-end part: the server never becomes
reachable and the captured dev-server log read yields `devLog`. -/
def c3Oracle (devLog : Except String String) : Oracle :=
  { baseOracle with
    readResult := fun p => if p = "/tmp/next.log" then devLog else Except.error "ENOENT" }

/-- Run decomposition of the C3 end-to-end run. -/
def c3Parts (devLog : Except String String) : RunParts :=
  generateProjectParts (c3Oracle devLog) "demo"

/-- Canonical trace of the C3 end-to-end run. -/
def c3Trace (devLog : Except String String) : List Event :=
  (c3Parts devLog).preEvs ++ ((c3Parts devLog).mainEvs ++ (c3Parts devLog).floatEvs) ++
    (c3Parts devLog).postEvs

/-- Oracle for the C3 witness of the success part: reachable on the second
attempt. -/
def c3wOracle : Oracle :=
  { baseOracle with
    hostResult := fun n => if n = 1 then Except.ok "h" else Except.error "no host" }

/-- Oracle for the C4 counterexample: the model answers with a JSON array
containing a duplicated string entry. -/
def c4Oracle : Oracle :=
  { baseOracle with
    planGen := fun _ => Except.ok "[\"a\",\"a\"]"
    parse := fun s =>
      if s = "[\"a\",\"a\"]" then Except.ok (Json.arr [Json.str "a", Json.str "a"])
      else Except.error "Unexpected token" }

/-- Oracle for the C4 witness: a well-formed three-entry plan with one
non-string entry. -/
def c4wOracle : Oracle :=
  { baseOracle with
    planGen := fun _ => Except.ok "[\"app/page.tsx\", 3, \"app/layout.tsx\"]"
    parse := fun s =>
      if s = "[\"app/page.tsx\", 3, \"app/layout.tsx\"]" then
        Except.ok (Json.arr [Json.str "app/page.tsx", Json.num 3, Json.str "app/layout.tsx"])
      else Except.error "Unexpected token" }

/-- Oracle for the C7 counterexample: the stream wraps the code in a fence. -/
def c7Oracle : Oracle :=
  { baseOracle with stream := fun _ => (["```tsx\n", "const x = 1", "\n```"], none) }

/-- Oracle for the C7 witness: a fence-free two-delta stream. -/
def c7wOracle : Oracle :=
  { baseOracle with stream := fun _ => (["const x", " = 1"], none) }

/-- Oracle for the C8 counterexample: a single delta with trailing
whitespace, which the final clean-up removes. -/
def c8Oracle : Oracle :=
  { baseOracle with stream := fun _ => (["hi\n"], none) }

/-! ## Generic lemmas about event classes and interleavings -/

theorem isErr_false_of_noTerm {e : Event} (h : isTerminal e = false) :
    isErrorEv e = false := by
  cases e <;> simp_all [isTerminal, isErrorEv]

theorem noTerm_of_logSb {l : List Event} (h : LogSb l) : NoTerm l := by
  intro e he
  rcases h e he with h1 | h1 <;> cases e <;> simp_all [isLogEv, isSandboxCreatedEv, isTerminal]

theorem noTerm_nil : NoTerm [] := by intro e he; cases he

theorem noTerm_cons {e : Event} {l : List Event} (he : isTerminal e = false)
    (h : NoTerm l) : NoTerm (e :: l) := by
  intro x hx
  rcases List.mem_cons.mp hx with rfl | hx
  · exact he
  · exact h x hx

theorem noTerm_append {a b : List Event} (ha : NoTerm a) (hb : NoTerm b) :
    NoTerm (a ++ b) := by
  intro x hx
  rcases List.mem_append.mp hx with hx | hx
  · exact ha x hx
  · exact hb x hx

theorem noTerm_ite {c : Prop} [Decidable c] {a b : List Event}
    (ha : NoTerm a) (hb : NoTerm b) : NoTerm (if c then a else b) := by
  by_cases h : c <;> simp [h, ha, hb]

theorem noTerm_singleton {e : Event} (he : isTerminal e = false) : NoTerm [e] :=
  noTerm_cons he noTerm_nil

theorem logSb_nil : LogSb [] := by intro e he; cases he

theorem logSb_cons_log {m : String} {l : List Event} (h : LogSb l) :
    LogSb (Event.log m :: l) := by
  intro x hx
  rcases List.mem_cons.mp hx with rfl | hx
  · exact Or.inl rfl
  · exact h x hx

theorem logSb_cons_sb {s : String} {l : List Event} (h : LogSb l) :
    LogSb (Event.sandboxCreated s :: l) := by
  intro x hx
  rcases List.mem_cons.mp hx with rfl | hx
  · exact Or.inr rfl
  · exact h x hx

theorem logSb_append {a b : List Event} (ha : LogSb a) (hb : LogSb b) :
    LogSb (a ++ b) := by
  intro x hx
  rcases List.mem_append.mp hx with hx | hx
  · exact ha x hx
  · exact hb x hx

theorem logSb_singleton_log (m : String) : LogSb [Event.log m] :=
  logSb_cons_log logSb_nil

theorem logSb_sub {a b : List Event} (hsub : a ⊆ b) (hb : LogSb b) : LogSb a :=
  fun e he => hb e (hsub he)

theorem countP_eq_zero_of_noTerm {l : List Event} (h : NoTerm l) :
    l.countP isTerminal = 0 := by
  rw [List.countP_eq_zero]
  intro a ha
  simp [h a ha]

theorem interleave_nil_left (ys : List Event) : Interleave [] ys ys := by
  induction ys with
  | nil => exact Interleave.nil
  | cons y ys ih => exact Interleave.right ih

theorem interleave_append (xs ys : List Event) : Interleave xs ys (xs ++ ys) := by
  induction xs with
  | nil => simpa using interleave_nil_left ys
  | cons x xs ih => exact Interleave.left ih

theorem interleave_perm {xs ys zs : List Event} (h : Interleave xs ys zs) :
    zs.Perm (xs ++ ys) := by
  induction h with
  | nil => simp
  | left _ ih => exact ih.cons _
  | right _ ih => exact (ih.cons _).trans List.perm_middle.symm

theorem interleave_mem {xs ys zs : List Event} (h : Interleave xs ys zs) :
    ∀ e ∈ zs, e ∈ xs ∨ e ∈ ys := by
  intro e he
  have := (interleave_perm h).subset he
  exact List.mem_append.mp this

theorem interleave_countP (p : Event → Bool) {xs ys zs : List Event}
    (h : Interleave xs ys zs) : zs.countP p = xs.countP p + ys.countP p := by
  rw [(interleave_perm h).countP_eq, List.countP_append]

theorem noTerm_interleave {xs ys zs : List Event} (h : Interleave xs ys zs)
    (hx : NoTerm xs) (hy : NoTerm ys) : NoTerm zs := by
  intro e he
  rcases interleave_mem h e he with h1 | h1
  · exact hx e h1
  · exact hy e h1

theorem goodTail_of_noTerm {l : List Event} (h : NoTerm l) : goodTail l := by
  induction l with
  | nil => trivial
  | cons e rest ih =>
    have he := h e (List.mem_cons_self e rest)
    have hrest : NoTerm rest := fun x hx => h x (List.mem_cons_of_mem e hx)
    simp only [goodTail, he]
    simpa using ih hrest

theorem goodTail_append_noTerm {a b : List Event} (ha : NoTerm a) :
    goodTail (a ++ b) ↔ goodTail b := by
  induction a with
  | nil => simp
  | cons e rest ih =>
    have he := ha e (List.mem_cons_self e rest)
    have hrest : NoTerm rest := fun x hx => ha x (List.mem_cons_of_mem e hx)
    simp only [List.cons_append, goodTail, he]
    simpa using ih hrest

theorem goodTail_of_interleave {xs ys zs : List Event} (h : Interleave xs ys zs)
    (hys : LogSb ys) (hxs : goodTail xs) : goodTail zs := by
  induction h with
  | nil => trivial
  | @left x xs' ys' zs' h ih =>
    by_cases ht : isTerminal x
    · simp only [goodTail, ht, if_pos]
      intro e he
      rcases interleave_mem h e he with h1 | h1
      · have := hxs
        simp only [goodTail, ht, if_pos] at this
        exact this e h1
      · exact hys e h1
    · simp only [goodTail, ht, if_neg, Bool.false_eq_true, not_false_eq_true]
      have hxs' : goodTail xs' := by
        have := hxs
        simpa [goodTail, ht] using this
      simpa using ih hys hxs'
  | @right y xs' ys' zs' h ih =>
    have hy := hys y (List.mem_cons_self y ys')
    have hyt : isTerminal y = false := by
      rcases hy with h1 | h1 <;> cases y <;> simp_all [isLogEv, isSandboxCreatedEv, isTerminal]
    have hys' : LogSb ys' := fun e he => hys e (List.mem_cons_of_mem y he)
    simp only [goodTail, hyt]
    simpa using ih hys' hxs

theorem logSb_ite {c : Prop} [Decidable c] {a b : List Event}
    (ha : LogSb a) (hb : LogSb b) : LogSb (if c then a else b) := by
  by_cases h : c <;> simp [h, ha, hb]

/-! ## Event-class lemmas for each orchestrator method -/

theorem runCommand_logSb (o : Oracle) (st : OrchState) (cmd : String) :
    LogSb (runCommand o st cmd).2.2 := by
  unfold runCommand
  split
  · exact logSb_nil
  · dsimp only
    split
    · exact logSb_cons_log (logSb_singleton_log _)
    · split
      · exact logSb_cons_log
          (logSb_append
            (logSb_append (logSb_ite (logSb_singleton_log _) logSb_nil)
              (logSb_ite (logSb_singleton_log _) logSb_nil))
            (logSb_singleton_log _))
      · exact logSb_cons_log
          (logSb_append (logSb_ite (logSb_singleton_log _) logSb_nil)
            (logSb_ite (logSb_singleton_log _) logSb_nil))

theorem copyConfigLoop_logSb (o : Oracle) (st : OrchState) (ps : List String) :
    LogSb (copyConfigLoop o st ps).2.2 := by
  induction ps generalizing st with
  | nil => exact logSb_nil
  | cons p rest ih =>
    unfold copyConfigLoop
    split
    · exact logSb_nil
    · dsimp only
      exact logSb_cons_log (ih _)

theorem copyConfigFiles_logSb (o : Oracle) (st : OrchState) :
    LogSb (copyConfigFiles o st).2.2 := by
  unfold copyConfigFiles
  split
  · exact logSb_nil
  · dsimp only
    split
    next st1 evs heq =>
      have h := copyConfigLoop_logSb o st configFiles
      rw [heq] at h
      exact logSb_cons_log (logSb_append h (logSb_singleton_log _))
    next m st1 evs heq =>
      have h := copyConfigLoop_logSb o st configFiles
      rw [heq] at h
      exact logSb_cons_log (logSb_append h (logSb_singleton_log _))

theorem copyShadcnLoop_logSb (o : Oracle) (st : OrchState) (fs : List String) :
    LogSb (copyShadcnLoop o st fs).2 := by
  induction fs generalizing st with
  | nil => exact logSb_nil
  | cons f rest ih =>
    unfold copyShadcnLoop
    split
    · exact ih st
    · split
      · dsimp only
        exact logSb_cons_log (ih _)
      · dsimp only
        exact logSb_cons_log (ih _)

theorem copyShadcnComponents_logSb (o : Oracle) (st : OrchState) :
    LogSb (copyShadcnComponents o st).2.2 := by
  unfold copyShadcnComponents
  split
  · exact logSb_nil
  · dsimp only
    split
    · exact logSb_cons_log (logSb_singleton_log _)
    · dsimp only
      exact logSb_cons_log
        (logSb_append (copyShadcnLoop_logSb o st uiComponents) (logSb_singleton_log _))

theorem installDependencies_logSb (o : Oracle) (st : OrchState) :
    LogSb (installDependencies o st).2.2 := by
  unfold installDependencies
  split
  · exact logSb_nil
  · dsimp only
    split
    next st1 evs heq =>
      have h := runCommand_logSb o st ("npm install")
      rw [heq] at h
      exact logSb_cons_log (logSb_append h (logSb_singleton_log _))
    next m st1 evs heq =>
      have h := runCommand_logSb o st ("npm install")
      rw [heq] at h
      exact logSb_cons_log (logSb_append h (logSb_singleton_log _))

theorem createSandboxAsync_logSb (o : Oracle) (st : OrchState) :
    LogSb (createSandboxAsync o st).2.2 := by
  unfold createSandboxAsync
  split
  · exact logSb_singleton_log _
  · split
    · exact logSb_cons_log (logSb_singleton_log _)
    · dsimp only
      rename_i sid heqc
      split
      next m st2 evs2 heq =>
        have h := copyConfigFiles_logSb o { st with sandbox := some sid }
        rw [heq] at h
        dsimp only at h
        simp only [List.nil_append, List.cons_append, List.append_assoc]
        exact logSb_cons_log (logSb_cons_sb (logSb_cons_log
          (logSb_append h (logSb_singleton_log _))))
      next st2 evs2 heq =>
        have h2 := copyConfigFiles_logSb o { st with sandbox := some sid }
        rw [heq] at h2
        dsimp only at h2
        split
        next m st3 evs3 heq3 =>
          have h3 := copyShadcnComponents_logSb o st2
          rw [heq3] at h3
          dsimp only at h3
          simp only [List.nil_append, List.cons_append, List.append_assoc]
          exact logSb_cons_log (logSb_cons_sb (logSb_cons_log
            (logSb_append h2 (logSb_append h3 (logSb_singleton_log _)))))
        next st3 evs3 heq3 =>
          have h3 := copyShadcnComponents_logSb o st2
          rw [heq3] at h3
          dsimp only at h3
          split
          next m st4 evs4 heq4 =>
            have h4 := installDependencies_logSb o st3
            rw [heq4] at h4
            dsimp only at h4
            simp only [List.nil_append, List.cons_append, List.append_assoc]
            exact logSb_cons_log (logSb_cons_sb (logSb_cons_log
              (logSb_append h2 (logSb_append h3 (logSb_append h4 (logSb_singleton_log _))))))
          next st4 evs4 heq4 =>
            have h4 := installDependencies_logSb o st3
            rw [heq4] at h4
            dsimp only at h4
            simp only [List.nil_append, List.cons_append, List.append_assoc]
            exact logSb_cons_log (logSb_cons_sb (logSb_cons_log
              (logSb_append h2 (logSb_append h3 h4))))

theorem generateProjectPlan_noTerm (o : Oracle) (desc : String) (st : OrchState) :
    NoTerm (generateProjectPlan o desc st).2.2 := by
  unfold generateProjectPlan
  split
  · exact noTerm_singleton rfl
  · dsimp only
    split
    · exact noTerm_cons rfl (noTerm_singleton rfl)
    · split
      · exact noTerm_cons rfl (noTerm_singleton rfl)
      · exact noTerm_cons rfl (noTerm_singleton rfl)

theorem streamYieldLoop_noTerm (path acc : String) (ds : List String) :
    NoTerm (streamYieldLoop path acc ds).2.2 := by
  induction ds generalizing acc with
  | nil => exact noTerm_nil
  | cons d rest ih =>
    unfold streamYieldLoop
    dsimp only
    exact noTerm_cons rfl (ih _)

theorem generateFileToMemfs_noTerm (o : Oracle) (desc : String) (st : OrchState)
    (p : String) : NoTerm (generateFileToMemfs o desc st p).events := by
  unfold generateFileToMemfs
  split
  · exact noTerm_singleton rfl
  · split
    · exact noTerm_singleton rfl
    · dsimp only
      split
      · exact noTerm_cons rfl (noTerm_cons rfl
          (noTerm_append (streamYieldLoop_noTerm _ _ _) (noTerm_singleton rfl)))
      · exact noTerm_cons rfl (noTerm_cons rfl
          (noTerm_append (streamYieldLoop_noTerm _ _ _)
            (noTerm_cons rfl (noTerm_singleton rfl))))

theorem genFilesLoop_noTerm (o : Oracle) (desc : String) (st : OrchState)
    (fs : List String) : NoTerm (genFilesLoop o desc st fs).2.2.1 := by
  induction fs generalizing st with
  | nil => exact noTerm_nil
  | cons f rest ih =>
    unfold genFilesLoop
    dsimp only
    split
    · exact noTerm_cons rfl (generateFileToMemfs_noTerm o desc st f)
    · exact noTerm_cons rfl
        (noTerm_append (generateFileToMemfs_noTerm o desc st f) (ih _))

theorem transferLoop_noTerm (o : Oracle) (st : OrchState) (ps : List String) :
    NoTerm (transferLoop o st ps).2.2.2 := by
  induction ps generalizing st with
  | nil => exact noTerm_nil
  | cons p rest ih =>
    unfold transferLoop
    split
    · exact ih st
    · split
      · exact ih st
      · split
        · exact noTerm_nil
        · dsimp only
          exact noTerm_cons rfl (ih _)

theorem transferFilesToSandbox_noTerm (o : Oracle) (st : OrchState) :
    NoTerm (transferFilesToSandbox o st).2.2 := by
  unfold transferFilesToSandbox
  split
  · exact noTerm_nil
  · dsimp only
    split
    next n st1 evs heq =>
      have h := transferLoop_noTerm o st (st.memfs.map Prod.fst)
      rw [heq] at h
      dsimp only at h
      exact noTerm_cons rfl (noTerm_append h (noTerm_singleton rfl))
    next m n st1 evs heq =>
      have h := transferLoop_noTerm o st (st.memfs.map Prod.fst)
      rw [heq] at h
      dsimp only at h
      exact noTerm_cons rfl (noTerm_append h (noTerm_singleton rfl))

theorem pkgCheckEvents_noTerm (o : Oracle) : NoTerm (pkgCheckEvents o) := by
  unfold pkgCheckEvents
  split
  · exact noTerm_singleton rfl
  · dsimp only
    split
    · exact noTerm_cons rfl (noTerm_singleton rfl)
    · split
      · split
        · split
          · split
            · exact noTerm_cons rfl (noTerm_singleton rfl)
            · exact noTerm_singleton rfl
          · exact noTerm_singleton rfl
        · exact noTerm_singleton rfl
      · exact noTerm_singleton rfl

theorem waitForServerLoop_noTerm (o : Oracle) (st : OrchState)
    (port maxRetries i rem : Nat) :
    NoTerm (waitForServerLoop o st port maxRetries i rem).2.2 := by
  induction rem generalizing st i with
  | zero => exact noTerm_nil
  | succ n ih =>
    unfold waitForServerLoop
    split
    · exact ih _ _
    · split
      · exact noTerm_singleton rfl
      · dsimp only
        refine noTerm_cons rfl (noTerm_append ?_ ?_)
        · split
          · exact noTerm_singleton rfl
          · exact noTerm_nil
        · exact ih _ _

theorem waitForServer_noTerm (o : Oracle) (st : OrchState) (port maxRetries : Nat) :
    NoTerm (waitForServer o st port maxRetries).2.2 :=
  waitForServerLoop_noTerm o st port maxRetries 0 maxRetries

theorem buildProject_noTerm (o : Oracle) (st : OrchState) :
    NoTerm (buildProject o st).2.2 := by
  unfold buildProject
  split
  next m st1 evs1 heq =>
    have h := transferFilesToSandbox_noTerm o st
    rw [heq] at h
    dsimp only at h
    simp only [List.nil_append, List.cons_append, List.append_assoc]
    exact noTerm_cons rfl (noTerm_append h (noTerm_singleton rfl))
  next st1 evs1 heq =>
    have h1 := transferFilesToSandbox_noTerm o st
    rw [heq] at h1
    dsimp only at h1
    have hpkg := pkgCheckEvents_noTerm o
    have hdev : NoTerm (match o.runResult ("nohup npm run dev > /tmp/next.log 2>&1 &") with
      | Except.error m => [Event.log ("Dev server command completed: Error: " ++ m)]
      | Except.ok _ => []) := by
      split
      · exact noTerm_singleton rfl
      · exact noTerm_nil
    have hw := waitForServer_noTerm o st1 3000 15
    dsimp only
    split
    · split
      · simp only [List.nil_append, List.cons_append, List.append_assoc]
        exact noTerm_cons rfl (noTerm_append h1 (noTerm_cons rfl (noTerm_append hpkg
          (noTerm_append hdev (noTerm_cons rfl (noTerm_append hw
            (noTerm_cons rfl (noTerm_cons rfl (noTerm_singleton rfl)))))))))
      · simp only [List.nil_append, List.cons_append, List.append_assoc]
        exact noTerm_cons rfl (noTerm_append h1 (noTerm_cons rfl (noTerm_append hpkg
          (noTerm_append hdev (noTerm_cons rfl (noTerm_append hw
            (noTerm_cons rfl (noTerm_singleton rfl))))))))
    · simp only [List.nil_append, List.cons_append, List.append_assoc]
      refine noTerm_cons rfl (noTerm_append h1 (noTerm_cons rfl (noTerm_append hpkg
        (noTerm_append hdev (noTerm_cons rfl (noTerm_append hw (noTerm_cons rfl
          (noTerm_append ?_ (noTerm_singleton rfl)))))))))
      split
      · exact noTerm_singleton rfl
      · exact noTerm_singleton rfl

/-! ## State-preservation lemmas (teardown accounting) -/

theorem runCommand_state (o : Oracle) (st : OrchState) (cmd : String) :
    (runCommand o st cmd).2.1 = st := by
  unfold runCommand
  split
  · rfl
  · dsimp only
    split
    · rfl
    · split <;> rfl

theorem copyConfigLoop_td (o : Oracle) (st : OrchState) (ps : List String) :
    (copyConfigLoop o st ps).2.1.teardownCalls = st.teardownCalls := by
  induction ps generalizing st with
  | nil => rfl
  | cons p rest ih =>
    unfold copyConfigLoop
    split
    · rfl
    · dsimp only
      exact ih _

theorem copyShadcnLoop_td (o : Oracle) (st : OrchState) (fs : List String) :
    (copyShadcnLoop o st fs).1.teardownCalls = st.teardownCalls := by
  induction fs generalizing st with
  | nil => rfl
  | cons f rest ih =>
    unfold copyShadcnLoop
    split
    · exact ih st
    · split
      · dsimp only; exact ih _
      · dsimp only; exact ih _

theorem copyConfigFiles_td (o : Oracle) (st : OrchState) :
    (copyConfigFiles o st).2.1.teardownCalls = st.teardownCalls := by
  unfold copyConfigFiles
  split
  · rfl
  · dsimp only
    split
    next st1 evs heq =>
      have h := copyConfigLoop_td o st configFiles
      rw [heq] at h
      exact h
    next m st1 evs heq =>
      have h := copyConfigLoop_td o st configFiles
      rw [heq] at h
      exact h

theorem copyShadcnComponents_td (o : Oracle) (st : OrchState) :
    (copyShadcnComponents o st).2.1.teardownCalls = st.teardownCalls := by
  unfold copyShadcnComponents
  split
  · rfl
  · dsimp only
    split
    · rfl
    · exact copyShadcnLoop_td o st uiComponents

theorem installDependencies_td (o : Oracle) (st : OrchState) :
    (installDependencies o st).2.1.teardownCalls = st.teardownCalls := by
  unfold installDependencies
  split
  · rfl
  · dsimp only
    split
    next st1 evs heq =>
      have h := congrArg (fun r => r.2.1) heq
      dsimp only at h
      rw [← h, runCommand_state]
    next m st1 evs heq =>
      have h := congrArg (fun r => r.2.1) heq
      dsimp only at h
      rw [← h, runCommand_state]

theorem createSandboxAsync_td (o : Oracle) (st : OrchState) :
    (createSandboxAsync o st).2.1.teardownCalls = st.teardownCalls := by
  unfold createSandboxAsync
  split
  · rfl
  · split
    · rfl
    · dsimp only
      rename_i sid heqc
      split
      next m st2 evs2 heq =>
        have h := copyConfigFiles_td o { st with sandbox := some sid }
        rw [heq] at h
        exact h
      next st2 evs2 heq =>
        have h2 := copyConfigFiles_td o { st with sandbox := some sid }
        rw [heq] at h2
        dsimp only at h2
        split
        next m st3 evs3 heq3 =>
          have h3 := copyShadcnComponents_td o st2
          rw [heq3] at h3
          dsimp only at h3
          rw [h3, h2]
        next st3 evs3 heq3 =>
          have h3 := copyShadcnComponents_td o st2
          rw [heq3] at h3
          dsimp only at h3
          split
          next m st4 evs4 heq4 =>
            have h4 := installDependencies_td o st3
            rw [heq4] at h4
            dsimp only at h4
            rw [h4, h3, h2]
          next st4 evs4 heq4 =>
            have h4 := installDependencies_td o st3
            rw [heq4] at h4
            dsimp only at h4
            rw [h4, h3, h2]

theorem generateProjectPlan_td (o : Oracle) (desc : String) (st : OrchState) :
    (generateProjectPlan o desc st).2.1.teardownCalls = st.teardownCalls := by
  unfold generateProjectPlan
  split
  · rfl
  · dsimp only
    split
    · rfl
    · split <;> rfl

theorem generateFileToMemfs_td (o : Oracle) (desc : String) (st : OrchState)
    (p : String) : (generateFileToMemfs o desc st p).st.teardownCalls = st.teardownCalls := by
  unfold generateFileToMemfs
  split
  · rfl
  · split
    · rfl
    · dsimp only
      split <;> rfl

theorem genFilesLoop_td (o : Oracle) (desc : String) (st : OrchState)
    (fs : List String) : (genFilesLoop o desc st fs).2.1.teardownCalls = st.teardownCalls := by
  induction fs generalizing st with
  | nil => rfl
  | cons f rest ih =>
    unfold genFilesLoop
    dsimp only
    split
    · exact generateFileToMemfs_td o desc st f
    · rw [ih _, generateFileToMemfs_td o desc st f]

theorem transferLoop_td (o : Oracle) (st : OrchState) (ps : List String) :
    (transferLoop o st ps).2.2.1.teardownCalls = st.teardownCalls := by
  induction ps generalizing st with
  | nil => rfl
  | cons p rest ih =>
    unfold transferLoop
    split
    · exact ih st
    · split
      · exact ih st
      · split
        · rfl
        · dsimp only
          exact ih _

theorem transferFilesToSandbox_td (o : Oracle) (st : OrchState) :
    (transferFilesToSandbox o st).2.1.teardownCalls = st.teardownCalls := by
  unfold transferFilesToSandbox
  split
  · rfl
  · dsimp only
    split
    next n st1 evs heq =>
      have h := transferLoop_td o st (st.memfs.map Prod.fst)
      rw [heq] at h
      exact h
    next m n st1 evs heq =>
      have h := transferLoop_td o st (st.memfs.map Prod.fst)
      rw [heq] at h
      exact h

theorem waitForServerLoop_td (o : Oracle) (st : OrchState)
    (port maxRetries i rem : Nat) :
    (waitForServerLoop o st port maxRetries i rem).2.1.teardownCalls = st.teardownCalls := by
  induction rem generalizing st i with
  | zero => rfl
  | succ n ih =>
    unfold waitForServerLoop
    split
    · exact ih _ _
    · split
      · rfl
      · dsimp only
        exact ih _ _

theorem buildProject_td (o : Oracle) (st : OrchState) :
    (buildProject o st).2.1.teardownCalls = st.teardownCalls := by
  unfold buildProject
  split
  next m st1 evs1 heq =>
    have h := transferFilesToSandbox_td o st
    rw [heq] at h
    exact h
  next st1 evs1 heq =>
    have h1 := transferFilesToSandbox_td o st
    rw [heq] at h1
    dsimp only at h1
    have hw : (waitForServer o st1 3000 15).2.1.teardownCalls = st1.teardownCalls :=
      waitForServerLoop_td o st1 3000 15 0 15
    dsimp only
    split
    · split
      · dsimp only
        rw [hw, h1]
      · dsimp only
        rw [hw, h1]
    · rw [hw, h1]

/-! ## Shape of a run decomposition -/

theorem catchEvs_countTerm (m : String) : (catchEvs m).countP isTerminal = 1 := by
  simp [catchEvs, List.countP_cons, isTerminal]

theorem catchEvs_goodTail (m : String) : goodTail (catchEvs m) := by
  simp only [catchEvs, goodTail, isTerminal, if_pos]
  intro x hx
  simp only [List.mem_singleton] at hx
  subst hx
  exact Or.inl rfl

theorem catchEvs_filter_err (m : String) :
    (catchEvs m).filter isErrorEv = [Event.error (classifyError m)] := by
  simp [catchEvs, List.filter, isErrorEv]

theorem parts_preEvs_noTerm (o : Oracle) (desc : String) :
    NoTerm (generateProjectParts o desc).preEvs := by
  unfold generateProjectParts
  dsimp only
  have hl := createSandboxAsync_logSb o initState
  have h : NoTerm ([Event.log ("🚀 Starting AI project generation with parallel processing..."),
      Event.log ("⚡ Starting sandbox setup and AI planning simultaneously...")] ++
      (createSandboxAsync o initState).2.2.take 1) :=
    noTerm_append (noTerm_cons rfl (noTerm_singleton rfl))
      (noTerm_of_logSb (logSb_sub (List.take_subset 1 _) hl))
  split
  · exact h
  · split
    · exact h
    · split
      · exact h
      · split
        · exact h
        · split <;> exact h

theorem parts_floatEvs_logSb (o : Oracle) (desc : String) :
    LogSb (generateProjectParts o desc).floatEvs := by
  unfold generateProjectParts
  dsimp only
  have h : LogSb ((createSandboxAsync o initState).2.2.drop 1) :=
    logSb_sub (List.drop_subset 1 _) (createSandboxAsync_logSb o initState)
  split
  · exact h
  · split
    · exact h
    · split
      · exact h
      · split
        · exact h
        · split <;> exact h

theorem parts_shape (o : Oracle) (desc : String) :
    (∃ m A, (generateProjectParts o desc).outcome = Except.error m ∧ NoTerm A ∧
       (generateProjectParts o desc).mainEvs = A ++ catchEvs m ∧
       (generateProjectParts o desc).postEvs = []) ∨
    (∃ m B, (generateProjectParts o desc).outcome = Except.error m ∧
       NoTerm (generateProjectParts o desc).mainEvs ∧ NoTerm B ∧
       (generateProjectParts o desc).postEvs = B ++ catchEvs m) ∨
    (∃ B sid pu, (generateProjectParts o desc).outcome = Except.ok () ∧
       NoTerm (generateProjectParts o desc).mainEvs ∧ NoTerm B ∧
       (generateProjectParts o desc).postEvs = B ++ [Event.complete sid pu]) := by
  unfold generateProjectParts
  dsimp only
  split
  next m stP planEvs hplan =>
    refine Or.inl ⟨m, Event.log ("🧠 AI planning in progress...") :: planEvs, rfl, ?_, by simp, rfl⟩
    have h := generateProjectPlan_noTerm o desc (createSandboxAsync o initState).2.1
    rw [hplan] at h
    exact noTerm_cons rfl h
  next files stP planEvs hplan =>
    have hplanEvs := generateProjectPlan_noTerm o desc (createSandboxAsync o initState).2.1
    rw [hplan] at hplanEvs
    dsimp only at hplanEvs
    split
    next m stG genEvs ys hgen =>
      have hgenEvs := genFilesLoop_noTerm o desc stP (files.filter (fun f => !isUiPath f && !configFiles.contains f))
      rw [hgen] at hgenEvs
      dsimp only at hgenEvs
      refine Or.inl ⟨m, Event.log ("🧠 AI planning in progress...") :: planEvs ++
        [Event.log ("✓ AI planning completed: " ++ toString files.length ++ " files planned")] ++
        (if (files.filter (fun f => !isUiPath f && !configFiles.contains f)).length ≠ files.length then
          [Event.log ("Filtered out " ++
            toString (files.length - (files.filter (fun f => !isUiPath f && !configFiles.contains f)).length) ++
            " pre-provided files from generation list")] else []) ++
        [Event.log ("🔥 Starting AI code generation in memory...")] ++ genEvs, rfl, ?_, by simp, rfl⟩
      exact noTerm_cons rfl (noTerm_append (noTerm_append (noTerm_append
        (noTerm_append hplanEvs (noTerm_singleton rfl))
        (noTerm_ite (noTerm_singleton rfl) noTerm_nil)) (noTerm_singleton rfl)) hgenEvs)
    next stG genEvs ys hgen =>
      have hgenEvs := genFilesLoop_noTerm o desc stP (files.filter (fun f => !isUiPath f && !configFiles.contains f))
      rw [hgen] at hgenEvs
      dsimp only at hgenEvs
      have hmain : NoTerm (Event.log ("🧠 AI planning in progress...") :: planEvs ++
          [Event.log ("✓ AI planning completed: " ++ toString files.length ++ " files planned")] ++
          (if (files.filter (fun f => !isUiPath f && !configFiles.contains f)).length ≠ files.length then
            [Event.log ("Filtered out " ++
              toString (files.length - (files.filter (fun f => !isUiPath f && !configFiles.contains f)).length) ++
              " pre-provided files from generation list")] else []) ++
          [Event.log ("🔥 Starting AI code generation in memory...")] ++ genEvs ++
          [Event.log ("✓ All files generated in memory, waiting for sandbox..."),
           Event.log ("⏳ Waiting for sandbox setup to complete...")]) := by
        exact noTerm_cons rfl (noTerm_append (noTerm_append (noTerm_append (noTerm_append
          (noTerm_append hplanEvs (noTerm_singleton rfl))
          (noTerm_ite (noTerm_singleton rfl) noTerm_nil)) (noTerm_singleton rfl)) hgenEvs)
          (noTerm_cons rfl (noTerm_singleton rfl)))
      split
      next m heqsb =>
        exact Or.inr (Or.inl ⟨m, [], rfl, hmain, noTerm_nil, by simp⟩)
      next sid heqsb =>
        split
        next m stT tEvs htr =>
          have htEvs := transferFilesToSandbox_noTerm o stG
          rw [htr] at htEvs
          dsimp only at htEvs
          refine Or.inr (Or.inl ⟨m, Event.log ("✓ Sandbox ready: " ++ sid) :: tEvs, rfl,
            hmain, noTerm_cons rfl htEvs, by simp⟩)
        next stT tEvs htr =>
          have htEvs := transferFilesToSandbox_noTerm o stG
          rw [htr] at htEvs
          dsimp only at htEvs
          split
          next m stB bEvs hbd =>
            have hbEvs := buildProject_noTerm o stT
            rw [hbd] at hbEvs
            dsimp only at hbEvs
            refine Or.inr (Or.inl ⟨m, Event.log ("✓ Sandbox ready: " ++ sid) :: tEvs ++ bEvs, rfl,
              hmain, noTerm_cons rfl (noTerm_append htEvs hbEvs), by simp⟩)
          next stB bEvs hbd =>
            have hbEvs := buildProject_noTerm o stT
            rw [hbd] at hbEvs
            dsimp only at hbEvs
            refine Or.inr (Or.inr ⟨Event.log ("✓ Sandbox ready: " ++ sid) :: tEvs ++ bEvs,
              stB.sandbox.getD "", stB.previewUrl, rfl,
              hmain, noTerm_cons rfl (noTerm_append htEvs hbEvs), by simp⟩)

theorem parts_teardown (o : Oracle) (desc : String) :
    (generateProjectParts o desc).finalSt.teardownCalls = 0 := by
  unfold generateProjectParts
  dsimp only
  have hsb : (createSandboxAsync o initState).2.1.teardownCalls = 0 :=
    createSandboxAsync_td o initState
  split
  next m stP planEvs hplan =>
    have h := generateProjectPlan_td o desc (createSandboxAsync o initState).2.1
    rw [hplan] at h
    dsimp only at h
    dsimp only
    rw [h, hsb]
  next files stP planEvs hplan =>
    have hP := generateProjectPlan_td o desc (createSandboxAsync o initState).2.1
    rw [hplan] at hP
    dsimp only at hP
    split
    next m stG genEvs ys hgen =>
      have h := genFilesLoop_td o desc stP (files.filter (fun f => !isUiPath f && !configFiles.contains f))
      rw [hgen] at h
      dsimp only at h
      rw [h, hP, hsb]
    next stG genEvs ys hgen =>
      have hG := genFilesLoop_td o desc stP (files.filter (fun f => !isUiPath f && !configFiles.contains f))
      rw [hgen] at hG
      dsimp only at hG
      split
      next m heqsb =>
        rw [hG, hP, hsb]
      next sid heqsb =>
        split
        next m stT tEvs htr =>
          have h := transferFilesToSandbox_td o stG
          rw [htr] at h
          dsimp only at h
          rw [h, hG, hP, hsb]
        next stT tEvs htr =>
          have hT := transferFilesToSandbox_td o stG
          rw [htr] at hT
          dsimp only at hT
          split
          next m stB bEvs hbd =>
            have h := buildProject_td o stT
            rw [hbd] at h
            dsimp only at h
            rw [h, hT, hG, hP, hsb]
          next stB bEvs hbd =>
            have h := buildProject_td o stT
            rw [hbd] at h
            dsimp only at h
            rw [h, hT, hG, hP, hsb]

theorem goodTail_singleton (e : Event) : goodTail [e] := by
  by_cases h : isTerminal e <;> simp [goodTail, h]

theorem filter_err_nil_of_noTerm {l : List Event} (h : NoTerm l) :
    l.filter isErrorEv = [] := by
  rw [List.filter_eq_nil_iff]
  intro a ha
  simp [isErr_false_of_noTerm (h a ha)]

/-- C1 (counterexample to the claim as stated): in the run where planning
fails while background provisioning succeeds and resolves late, the trace
contains exactly one terminal event, but an environment-created notice —
neither a log line nor a terminal event — is emitted after it, so the
terminal event is not the last event modulo trailing failure-path logs. -/
theorem claim_c1_counterexample :
    RunTrace c1Oracle "demo" c1Trace ∧
    c1Trace.countP isTerminal = 1 ∧
    (afterFirstTerminal c1Trace).any (fun e => !(isLogEv e || isTerminal e)) = true :=
  ⟨⟨c1Parts.mainEvs ++ c1Parts.floatEvs, interleave_append _ _, rfl⟩, by decide, by decide⟩

/-- C1 (amended): every interleaved trace of a `generateProject` run carries
at most one terminal event; when the run succeeds the terminal `complete`
event is the last event of the trace; and after the first terminal event
only log lines and events of the still-running provisioning task (log lines
or the environment-created notice) can occur. -/
theorem claim_c1_amended (o : Oracle) (desc : String) (tr : List Event)
    (htr : RunTrace o desc tr) :
    tr.countP isTerminal ≤ 1 ∧
    ((generateProjectParts o desc).outcome = Except.ok () →
      ∃ sid pu, tr.getLast? = some (Event.complete sid pu)) ∧
    goodTail tr := by
  obtain ⟨z, hz, rfl⟩ := htr
  have hpre := parts_preEvs_noTerm o desc
  have hfloat := parts_floatEvs_logSb o desc
  have hfloat0 : (generateProjectParts o desc).floatEvs.countP isTerminal = 0 :=
    countP_eq_zero_of_noTerm (noTerm_of_logSb hfloat)
  have hpre0 : (generateProjectParts o desc).preEvs.countP isTerminal = 0 :=
    countP_eq_zero_of_noTerm hpre
  have hcz := interleave_countP isTerminal hz
  rcases parts_shape o desc with ⟨m, A, hout, hA, hmain, hpost⟩ |
    ⟨m, B, hout, hmain, hB, hpost⟩ | ⟨B, sid, pu, hout, hmain, hB, hpost⟩
  · refine ⟨?_, ?_, ?_⟩
    · rw [List.countP_append, List.countP_append, hpre0, hpost, hcz, hmain,
        List.countP_append, countP_eq_zero_of_noTerm hA, catchEvs_countTerm, hfloat0]
      simp
    · intro h
      rw [hout] at h
      cases h
    · rw [hpost, List.append_nil, goodTail_append_noTerm hpre]
      refine goodTail_of_interleave hz hfloat ?_
      rw [hmain, goodTail_append_noTerm hA]
      exact catchEvs_goodTail m
  · have hzn : NoTerm z := noTerm_interleave hz hmain (noTerm_of_logSb hfloat)
    refine ⟨?_, ?_, ?_⟩
    · rw [List.countP_append, List.countP_append, hpre0, hpost, hcz,
        countP_eq_zero_of_noTerm hmain, hfloat0, List.countP_append,
        countP_eq_zero_of_noTerm hB, catchEvs_countTerm]
    · intro h
      rw [hout] at h
      cases h
    · rw [goodTail_append_noTerm (noTerm_append hpre hzn), hpost,
        goodTail_append_noTerm hB]
      exact catchEvs_goodTail m
  · have hzn : NoTerm z := noTerm_interleave hz hmain (noTerm_of_logSb hfloat)
    refine ⟨?_, ?_, ?_⟩
    · rw [List.countP_append, List.countP_append, hpre0, hpost, hcz,
        countP_eq_zero_of_noTerm hmain, hfloat0, List.countP_append,
        countP_eq_zero_of_noTerm hB]
      simp [List.countP_cons, isTerminal]
    · intro _
      refine ⟨sid, pu, ?_⟩
      rw [hpost, show (generateProjectParts o desc).preEvs ++ z ++
          (B ++ [Event.complete sid pu]) =
          ((generateProjectParts o desc).preEvs ++ z ++ B) ++ [Event.complete sid pu] by
        simp [List.append_assoc]]
      exact List.getLast?_concat _
    · rw [goodTail_append_noTerm (noTerm_append hpre hzn), hpost,
        goodTail_append_noTerm hB]
      exact goodTail_singleton _

/-- C1 (witness): the amended statement instantiated on a concrete fully
successful run and its canonical trace. -/
theorem claim_c1_amended_witness :
    c1wTrace.countP isTerminal ≤ 1 ∧
    ((generateProjectParts c1wOracle "demo").outcome = Except.ok () →
      ∃ sid pu, c1wTrace.getLast? = some (Event.complete sid pu)) ∧
    goodTail c1wTrace :=
  claim_c1_amended c1wOracle "demo" c1wTrace
    ⟨c1wParts.mainEvs ++ c1wParts.floatEvs, interleave_append _ _, rfl⟩

/-- C2 (counterexample to the claim as stated): in the quota scenario the
run emits exactly one error event, with the quota-category text, but no
teardown is attempted at all — the catch block of `generateProject` never
invokes `cleanup` (nor any destroy call), so "teardown is attempted exactly
once" fails. -/
theorem claim_c2_counterexample :
    RunTrace c2Oracle "demo" c2Trace ∧
    c2Trace.countP isErrorEv = 1 ∧
    Event.error "API quota exceeded. Please check your E2B account limits." ∈ c2Trace ∧
    c2Parts.finalSt.teardownCalls = 0 ∧ (0 : Nat) ≠ 1 :=
  ⟨⟨c2Parts.mainEvs ++ c2Parts.floatEvs, interleave_append _ _, rfl⟩,
   by decide, by decide, by decide, by decide⟩

/-- C2 (amended): whenever a `generateProject` run fails with raw message
`m`, every interleaved trace of the run contains exactly one error event,
whose message is the substring classification of `m` (expired environment,
timeout, authentication, quota, in that precedence, else the raw message);
and the Coordinator performs no teardown: its `cleanup` routine is never
invoked during the run. -/
theorem claim_c2_amended (o : Oracle) (desc : String) (tr : List Event) (m : String)
    (htr : RunTrace o desc tr)
    (hout : (generateProjectParts o desc).outcome = Except.error m) :
    tr.filter isErrorEv = [Event.error (classifyError m)] ∧
    (generateProjectParts o desc).finalSt.teardownCalls = 0 := by
  refine ⟨?_, parts_teardown o desc⟩
  obtain ⟨z, hz, rfl⟩ := htr
  have hpre := filter_err_nil_of_noTerm (parts_preEvs_noTerm o desc)
  have hfloatN : NoTerm (generateProjectParts o desc).floatEvs :=
    noTerm_of_logSb (parts_floatEvs_logSb o desc)
  have hzperm := (interleave_perm hz).filter isErrorEv
  rcases parts_shape o desc with ⟨m1, A, hout1, hA, hmain, hpost⟩ |
    ⟨m1, B, hout1, hmain, hB, hpost⟩ | ⟨B, sid, pu, hout1, hmain, hB, hpost⟩
  · rw [hout] at hout1
    injection hout1 with hm
    subst hm
    have hzf : z.filter isErrorEv = [Event.error (classifyError m)] := by
      rw [List.filter_append, hmain, List.filter_append,
        filter_err_nil_of_noTerm hA, catchEvs_filter_err,
        filter_err_nil_of_noTerm hfloatN] at hzperm
      simp only [List.append_nil, List.nil_append] at hzperm
      exact List.perm_singleton.mp hzperm
    rw [List.filter_append, List.filter_append, hpre, hzf, hpost]
    simp
  · rw [hout] at hout1
    injection hout1 with hm
    subst hm
    have hzf : z.filter isErrorEv = [] := by
      rw [List.filter_append, filter_err_nil_of_noTerm hmain,
        filter_err_nil_of_noTerm hfloatN] at hzperm
      exact List.perm_nil.mp (by simpa using hzperm)
    rw [List.filter_append, List.filter_append, hpre, hzf, hpost,
      List.filter_append, filter_err_nil_of_noTerm hB, catchEvs_filter_err]
    simp
  · rw [hout] at hout1
    cases hout1

/-- C2 (witness): the amended statement instantiated on the concrete quota
scenario; the classified message is the quota-category text. -/
theorem claim_c2_amended_witness :
    c2Trace.filter isErrorEv =
      [Event.error (classifyError "Failed to create E2B sandbox: quota exceeded")] ∧
    (generateProjectParts c2Oracle "demo").finalSt.teardownCalls = 0 :=
  claim_c2_amended c2Oracle "demo" c2Trace "Failed to create E2B sandbox: quota exceeded"
    ⟨c2Parts.mainEvs ++ c2Parts.floatEvs, interleave_append _ _, rfl⟩ rfl

/-! ## Readiness-prober lemmas -/

theorem waitLoop_success (o : Oracle) (port maxRetries : Nat) :
    ∀ (f : Nat) (st : OrchState) (i rem : Nat), st.sandbox.isSome = true →
    f < rem →
    (∀ j, j < f → (o.hostResult (st.hostCalls + j)).isOk = false) →
    (o.hostResult (st.hostCalls + f)).isOk = true →
    (waitForServerLoop o st port maxRetries i rem).1 = true ∧
    (waitForServerLoop o st port maxRetries i rem).2.1.hostCalls = st.hostCalls + f + 1 := by
  intro f
  induction f with
  | zero =>
    intro st i rem hs hlt hfail hok
    match rem, hlt with
    | rem + 1, _ =>
      unfold waitForServerLoop
      split
      next hnone => rw [hnone] at hs; cases hs
      next sid hsid =>
        split
        next h heq => exact ⟨rfl, by simp⟩
        next m heq =>
          rw [show st.hostCalls + 0 = st.hostCalls by omega, heq] at hok
          cases hok
  | succ f ih =>
    intro st i rem hs hlt hfail hok
    match rem, hlt with
    | rem + 1, _ =>
      unfold waitForServerLoop
      split
      next hnone => rw [hnone] at hs; cases hs
      next sid hsid =>
        split
        next h heq =>
          have h0 := hfail 0 (Nat.succ_pos f)
          rw [show st.hostCalls + 0 = st.hostCalls by omega, heq] at h0
          cases h0
        next m heq =>
          dsimp only
          have hrec := ih { st with hostCalls := st.hostCalls + 1 } (i + 1) rem hs
            (by omega)
            (fun j hj => by
              have := hfail (j + 1) (by omega)
              dsimp only
              rw [show st.hostCalls + 1 + j = st.hostCalls + (j + 1) by omega]
              exact this)
            (by
              dsimp only
              rw [show st.hostCalls + 1 + f = st.hostCalls + (f + 1) by omega]
              exact hok)
          refine ⟨hrec.1, ?_⟩
          rw [hrec.2]
          dsimp only
          omega

theorem waitLoop_fail (o : Oracle) (port maxRetries : Nat) :
    ∀ (rem : Nat) (st : OrchState) (i : Nat), st.sandbox.isSome = true →
    (∀ j, j < rem → (o.hostResult (st.hostCalls + j)).isOk = false) →
    (waitForServerLoop o st port maxRetries i rem).1 = false ∧
    (waitForServerLoop o st port maxRetries i rem).2.1.hostCalls = st.hostCalls + rem ∧
    (∀ j, j < rem → Event.log (waitMsg port (i + j + 1) maxRetries) ∈
      (waitForServerLoop o st port maxRetries i rem).2.2) := by
  intro rem
  induction rem with
  | zero =>
    intro st i hs hfail
    exact ⟨rfl, by simp [waitForServerLoop], by intro j hj; cases hj⟩
  | succ rem ih =>
    intro st i hs hfail
    unfold waitForServerLoop
    split
    next hnone => rw [hnone] at hs; cases hs
    next sid hsid =>
      split
      next h heq =>
        have h0 := hfail 0 (Nat.succ_pos rem)
        rw [show st.hostCalls + 0 = st.hostCalls by omega, heq] at h0
        cases h0
      next m heq =>
        dsimp only
        have hrec := ih { st with hostCalls := st.hostCalls + 1 } (i + 1) hs
          (fun j hj => by
            have := hfail (j + 1) (by omega)
            dsimp only
            rw [show st.hostCalls + 1 + j = st.hostCalls + (j + 1) by omega]
            exact this)
        refine ⟨hrec.1, by rw [hrec.2.1]; dsimp only; omega, ?_⟩
        intro j hj
        match j with
        | 0 => exact List.mem_cons_self _ _
        | j + 1 =>
          have hm := hrec.2.2 j (by omega)
          rw [show i + (j + 1) + 1 = i + 1 + j + 1 by omega]
          exact List.mem_cons_of_mem _ (List.mem_append.mpr (Or.inr hm))

theorem transferLoop_pres (o : Oracle) (st : OrchState) (ps : List String) :
    (transferLoop o st ps).2.2.1.sandbox = st.sandbox ∧
    (transferLoop o st ps).2.2.1.previewUrl = st.previewUrl ∧
    (transferLoop o st ps).2.2.1.hostCalls = st.hostCalls ∧
    (transferLoop o st ps).2.2.1.memfs = st.memfs := by
  induction ps generalizing st with
  | nil => exact ⟨rfl, rfl, rfl, rfl⟩
  | cons p rest ih =>
    unfold transferLoop
    split
    · exact ih st
    · split
      · exact ih st
      · split
        · exact ⟨rfl, rfl, rfl, rfl⟩
        · dsimp only
          exact ih _

theorem transferFiles_pres (o : Oracle) (st : OrchState) :
    (transferFilesToSandbox o st).2.1.sandbox = st.sandbox ∧
    (transferFilesToSandbox o st).2.1.previewUrl = st.previewUrl ∧
    (transferFilesToSandbox o st).2.1.hostCalls = st.hostCalls ∧
    (transferFilesToSandbox o st).2.1.memfs = st.memfs := by
  unfold transferFilesToSandbox
  split
  · exact ⟨rfl, rfl, rfl, rfl⟩
  · dsimp only
    split
    next n st1 evs heq =>
      have h := transferLoop_pres o st (st.memfs.map Prod.fst)
      rw [heq] at h
      exact h
    next m n st1 evs heq =>
      have h := transferLoop_pres o st (st.memfs.map Prod.fst)
      rw [heq] at h
      exact h

theorem waitLoop_prev (o : Oracle) (st : OrchState) (port maxRetries i rem : Nat) :
    (waitForServerLoop o st port maxRetries i rem).2.1.previewUrl = st.previewUrl ∧
    (waitForServerLoop o st port maxRetries i rem).2.1.sandbox = st.sandbox := by
  induction rem generalizing st i with
  | zero => exact ⟨rfl, rfl⟩
  | succ n ih =>
    unfold waitForServerLoop
    split
    · exact ih _ _
    · split
      · exact ⟨rfl, rfl⟩
      · dsimp only
        exact ih _ _

theorem buildProject_timeout (o : Oracle) (st : OrchState) (logs : String)
    (hhost : ∀ n, (o.hostResult n).isOk = false)
    (htr : (transferFilesToSandbox o st).1 = Except.ok ())
    (hlog : o.readResult ("/tmp/next.log") = Except.ok logs) :
    (buildProject o st).1 = Except.ok () ∧
    (buildProject o st).2.1.previewUrl = st.previewUrl ∧
    Event.log ("Dev server logs: " ++ logs) ∈ (buildProject o st).2.2 ∧
    (buildProject o st).2.2.getLast? = some (Event.log ("✓ Build completed successfully!")) := by
  unfold buildProject
  split
  next m st1 evs1 heq =>
    rw [heq] at htr
    cases htr
  next st1 evs1 heq =>
    have hpres := transferFiles_pres o st
    rw [heq] at hpres
    dsimp only at hpres
    have hsSome : st.sandbox.isSome = true := by
      rcases hnd : st.sandbox with _ | sid
      · unfold transferFilesToSandbox at heq
        rw [hnd] at heq
        simp at heq
      · rfl
    have hs1 : st1.sandbox.isSome = true := by rw [hpres.1]; exact hsSome
    have hw := waitLoop_fail o 3000 15 15 st1 0 hs1 (fun j _ => hhost _)
    have hready : (waitForServer o st1 3000 15).1 = false := hw.1
    have hprev := waitLoop_prev o st1 3000 15 0 15
    dsimp only
    rw [hready]
    simp only [Bool.false_eq_true, if_false]
    rw [hlog]
    refine ⟨by simp, ?_, ?_, ?_⟩
    · have : (waitForServer o st1 3000 15).2.1.previewUrl = st1.previewUrl := hprev.1
      rw [this, hpres.2.1]
    · simp [List.mem_append, List.mem_cons]
    · exact List.getLast?_concat _

/-- C3: with the sandbox present, the readiness prober returns `true` after
exactly `k` `getHost` attempts when the first success is on attempt
`k ≤ N`, and polls no further; when every attempt in the budget `N` fails
it returns `false` after exactly `N` attempts, each failed attempt logged
with its waiting line, raising no error; and the surrounding run still
terminates: `buildProject` completes without error, leaves the preview URL
unset, and surfaces the captured dev-server log, and the end-to-end run on
a never-reachable environment ends in a `complete` event carrying no
preview URL. -/
theorem claim_c3 :
    (∀ (o : Oracle) (st : OrchState) (port N k : Nat), st.sandbox.isSome = true →
      1 ≤ k → k ≤ N →
      (∀ j, j < k - 1 → (o.hostResult (st.hostCalls + j)).isOk = false) →
      (o.hostResult (st.hostCalls + (k - 1))).isOk = true →
      (waitForServer o st port N).1 = true ∧
      (waitForServer o st port N).2.1.hostCalls = st.hostCalls + k) ∧
    (∀ (o : Oracle) (st : OrchState) (port N : Nat), st.sandbox.isSome = true →
      (∀ j, j < N → (o.hostResult (st.hostCalls + j)).isOk = false) →
      (waitForServer o st port N).1 = false ∧
      (waitForServer o st port N).2.1.hostCalls = st.hostCalls + N ∧
      (∀ j, j < N → Event.log (waitMsg port (j + 1) N) ∈ (waitForServer o st port N).2.2)) ∧
    (∀ (o : Oracle) (st : OrchState) (logs : String),
      (∀ n, (o.hostResult n).isOk = false) →
      (transferFilesToSandbox o st).1 = Except.ok () →
      o.readResult ("/tmp/next.log") = Except.ok logs →
      (buildProject o st).1 = Except.ok () ∧
      (buildProject o st).2.1.previewUrl = st.previewUrl ∧
      Event.log ("Dev server logs: " ++ logs) ∈ (buildProject o st).2.2) ∧
    ((c3Parts (Except.ok "ready")).outcome = Except.ok () ∧
      (c3Parts (Except.ok "ready")).finalSt.previewUrl = none ∧
      (c3Trace (Except.ok "ready")).getLast? = some (Event.complete "sb1" none) ∧
      Event.log ("Dev server logs: ready") ∈ c3Trace (Except.ok "ready")) := by
  refine ⟨?_, ?_, ?_, rfl, rfl, by decide, by decide⟩
  · intro o st port N k hs hk1 hkN hfail hok
    have h := waitLoop_success o port N (k - 1) st 0 N hs (by omega) hfail hok
    refine ⟨h.1, ?_⟩
    have h2 : (waitForServer o st port N).2.1.hostCalls = st.hostCalls + (k - 1) + 1 := h.2
    rw [h2]
    omega
  · intro o st port N hs hfail
    have h := waitLoop_fail o port N N st 0 hs hfail
    refine ⟨h.1, h.2.1, ?_⟩
    intro j hj
    have hm := h.2.2 j hj
    rw [show 0 + j + 1 = j + 1 by omega] at hm
    exact hm
  · intro o st logs hhost htr hlog
    have h := buildProject_timeout o st logs hhost htr hlog
    exact ⟨h.1, h.2.1, h.2.2.1⟩

/-- C3 (witness): the prober succeeds on the second of three attempts and
stops; a two-attempt budget is exhausted with both waiting lines logged;
and the timeout diagnosis surfaces the captured log on a concrete state. -/
theorem claim_c3_witness :
    ((waitForServer c3wOracle { initState with sandbox := some "sb1" } 3000 3).1 = true ∧
     (waitForServer c3wOracle { initState with sandbox := some "sb1" } 3000 3).2.1.hostCalls = 0 + 2) ∧
    ((waitForServer baseOracle { initState with sandbox := some "sb1" } 3000 2).1 = false ∧
     (waitForServer baseOracle { initState with sandbox := some "sb1" } 3000 2).2.1.hostCalls = 0 + 2 ∧
     (∀ j, j < 2 → Event.log (waitMsg 3000 (j + 1) 2) ∈
       (waitForServer baseOracle { initState with sandbox := some "sb1" } 3000 2).2.2)) ∧
    ((buildProject (c3Oracle (Except.ok "ready")) { initState with sandbox := some "sb1" }).1 = Except.ok () ∧
     (buildProject (c3Oracle (Except.ok "ready")) { initState with sandbox := some "sb1" }).2.1.previewUrl =
       ({ initState with sandbox := some "sb1" } : OrchState).previewUrl ∧
     Event.log ("Dev server logs: ready") ∈
       (buildProject (c3Oracle (Except.ok "ready")) { initState with sandbox := some "sb1" }).2.2) :=
  ⟨claim_c3.1 c3wOracle { initState with sandbox := some "sb1" } 3000 3 2 rfl
      (by omega) (by omega)
      (fun j hj => by
        have hj0 : j = 0 := by omega
        subst hj0
        rfl)
      rfl,
   claim_c3.2.1 baseOracle { initState with sandbox := some "sb1" } 3000 2 rfl
      (fun j hj => by
        have : j = 0 ∨ j = 1 := by omega
        rcases this with h | h <;> subst h <;> rfl),
   claim_c3.2.2.1 (c3Oracle (Except.ok "ready")) { initState with sandbox := some "sb1" }
      "ready" (fun n => rfl) rfl rfl⟩

/-- C4 (counterexample to the claim as stated): a generator response that
parses as the JSON array ["a","a"] makes `generateProjectPlan` return the
plan ["a","a"] — the string entries verbatim — which is not deduplicated,
so the returned plan is not "an ordered, deduplicated sequence of non-empty
relative path strings bounded by a fixed cap" (no deduplication, emptiness
filtering or count cap is applied anywhere). -/
theorem claim_c4_counterexample :
    (generateProjectPlan c4Oracle "demo" initState).1 = Except.ok ["a", "a"] ∧
    ¬ (["a", "a"] : List String).Nodup :=
  ⟨rfl, by decide⟩

/-- C4 (amended): for every generator response that (after fence stripping)
parses as a JSON array, `generateProjectPlan` returns exactly the string
entries of that array, in array order, with non-string entries filtered
out, and records them on the project context; no deduplication, emptiness
filtering or length cap is applied. -/
theorem claim_c4_amended (o : Oracle) (desc : String) (st : OrchState)
    (text : String) (elems : List Json)
    (hk : o.googleKey = true)
    (hgen : o.planGen (planPrompt desc) = Except.ok text)
    (hp : o.parse (cleanPlanText text) = Except.ok (Json.arr elems)) :
    (generateProjectPlan o desc st).1 = Except.ok (jsonStrings elems) ∧
    (generateProjectPlan o desc st).2.1.ctxFiles = jsonStrings elems := by
  unfold generateProjectPlan
  rw [hk]
  simp only [Bool.not_true, Bool.false_eq_true, if_false]
  rw [hgen]
  dsimp only
  rw [hp]
  exact ⟨rfl, rfl⟩

/-- C4 (witness): the amended statement instantiated on a three-entry array
with one non-string entry. -/
theorem claim_c4_amended_witness :
    (generateProjectPlan c4wOracle "demo" initState).1 =
      Except.ok (jsonStrings [Json.str "app/page.tsx", Json.num 3, Json.str "app/layout.tsx"]) ∧
    (generateProjectPlan c4wOracle "demo" initState).2.1.ctxFiles =
      jsonStrings [Json.str "app/page.tsx", Json.num 3, Json.str "app/layout.tsx"] :=
  claim_c4_amended c4wOracle "demo" initState "[\"app/page.tsx\", 3, \"app/layout.tsx\"]"
    [Json.str "app/page.tsx", Json.num 3, Json.str "app/layout.tsx"] rfl rfl rfl

/-- C5: when the generator response does not parse as a JSON array the plan
generator does not throw and returns the deterministic non-empty fallback
list; the fallback depends only on keyword presence in the lowercased
description (dashboard/admin first, else blog, else ecommerce/shop, else a
default pair); any blog-keyword description without the
higher-precedence keywords receives the two blog files; and the concrete
description "Build a blog website" yields exactly the baseline plus the two
blog files. -/
theorem claim_c5 :
    (∀ (o : Oracle) (desc : String) (st : OrchState) (text : String),
      o.googleKey = true →
      o.planGen (planPrompt desc) = Except.ok text →
      (∀ elems, o.parse (cleanPlanText text) ≠ Except.ok (Json.arr elems)) →
      (generateProjectPlan o desc st).1 = Except.ok (fallbackFiles desc) ∧
      fallbackFiles desc ≠ []) ∧
    (∀ d1 d2 : String,
      jsIncludes (jsToLower d1) ("dashboard") = jsIncludes (jsToLower d2) ("dashboard") →
      jsIncludes (jsToLower d1) ("admin") = jsIncludes (jsToLower d2) ("admin") →
      jsIncludes (jsToLower d1) ("blog") = jsIncludes (jsToLower d2) ("blog") →
      jsIncludes (jsToLower d1) ("ecommerce") = jsIncludes (jsToLower d2) ("ecommerce") →
      jsIncludes (jsToLower d1) ("shop") = jsIncludes (jsToLower d2) ("shop") →
      fallbackFiles d1 = fallbackFiles d2) ∧
    (∀ desc : String, jsIncludes (jsToLower desc) ("blog") = true →
      jsIncludes (jsToLower desc) ("dashboard") = false →
      jsIncludes (jsToLower desc) ("admin") = false →
      "app/blog/page.tsx" ∈ fallbackFiles desc ∧
      "components/blog/post-card.tsx" ∈ fallbackFiles desc) ∧
    fallbackFiles ("Build a blog website") =
      ["app/layout.tsx", "app/page.tsx", "app/globals.css",
       "app/blog/page.tsx", "components/blog/post-card.tsx"] := by
  refine ⟨?_, ?_, ?_, by decide⟩
  · intro o desc st text hk hgen hpar
    constructor
    · unfold generateProjectPlan
      rw [hk]
      simp only [Bool.not_true, Bool.false_eq_true, if_false]
      rw [hgen]
      dsimp only
      split
      next elems heq => exact absurd heq (hpar elems)
      next hne => rfl
    · simp [fallbackFiles]
  · intro d1 d2 h1 h2 h3 h4 h5
    unfold fallbackFiles
    dsimp only
    rw [h1, h2, h3, h4, h5]
  · intro desc hblog hdash hadmin
    unfold fallbackFiles
    dsimp only
    rw [hblog, hdash, hadmin]
    simp

/-- C5 (witness): the fallback path instantiated on an unparseable response
and the blog description. -/
theorem claim_c5_witness :
    ((generateProjectPlan baseOracle "Build a blog website" initState).1 =
       Except.ok (fallbackFiles ("Build a blog website")) ∧
     fallbackFiles ("Build a blog website") ≠ []) ∧
    ("app/blog/page.tsx" ∈ fallbackFiles ("Build a blog website") ∧
     "components/blog/post-card.tsx" ∈ fallbackFiles ("Build a blog website")) :=
  ⟨claim_c5.1 baseOracle ("Build a blog website") initState "[]" rfl rfl
      (fun elems h => Except.noConfusion h),
   claim_c5.2.2.1 ("Build a blog website") (by decide) (by decide) (by decide)⟩

/-- C6: for every path in the provisioned-skip set (the `components/ui/`
namespace or one of the six fixed configuration files), the file generator
yields nothing, makes no call to the text-generation capability, leaves the
orchestrator state (in particular the staging store) unchanged, propagates
no error, and emits only the single skip log notice — no `file_start` or
`file_content` event. -/
theorem claim_c6 (o : Oracle) (desc : String) (st : OrchState) (p : String)
    (h : inSkipSet p = true) :
    (generateFileToMemfs o desc st p).yields = [] ∧
    (generateFileToMemfs o desc st p).calls = [] ∧
    (generateFileToMemfs o desc st p).st = st ∧
    (generateFileToMemfs o desc st p).err = none ∧
    ((generateFileToMemfs o desc st p).events =
       [Event.log ("✓ Skipping " ++ p ++ " - shadcn/ui component already available")] ∨
     (generateFileToMemfs o desc st p).events =
       [Event.log ("✓ Skipping " ++ p ++ " - config file already provided")]) := by
  unfold generateFileToMemfs
  unfold inSkipSet at h
  by_cases h1 : isUiPath p = true
  · simp only [h1, if_true]
    exact ⟨trivial, trivial, trivial, trivial, Or.inl trivial⟩
  · have h1f : isUiPath p = false := by
      cases hu : isUiPath p
      · rfl
      · exact absurd hu h1
    have h2 : configFiles.contains p = true := by
      rw [h1f] at h
      simpa using h
    simp only [h1f, h2, Bool.false_eq_true, if_false, if_true]
    exact ⟨trivial, trivial, trivial, trivial, Or.inr trivial⟩

/-- C6 (witness): the skip behaviour on a shared UI-component path and on a
configuration file. -/
theorem claim_c6_witness :
    (generateFileToMemfs baseOracle "demo" initState "components/ui/button.tsx").yields = [] ∧
    (generateFileToMemfs baseOracle "demo" initState "components/ui/button.tsx").calls = [] ∧
    (generateFileToMemfs baseOracle "demo" initState "components/ui/button.tsx").st = initState ∧
    (generateFileToMemfs baseOracle "demo" initState "components/ui/button.tsx").err = none ∧
    ((generateFileToMemfs baseOracle "demo" initState "components/ui/button.tsx").events =
       [Event.log ("✓ Skipping components/ui/button.tsx - shadcn/ui component already available")] ∨
     (generateFileToMemfs baseOracle "demo" initState "components/ui/button.tsx").events =
       [Event.log ("✓ Skipping components/ui/button.tsx - config file already provided")]) :=
  claim_c6 baseOracle "demo" initState "components/ui/button.tsx" (by decide)

/-! ## Stream-content lemmas -/

theorem streamYieldLoop_full (p : String) (ds : List String) :
    ∀ acc, (streamYieldLoop p acc ds).1 = acc ++ concatAll ds := by
  induction ds with
  | nil =>
    intro acc
    show acc = acc ++ ""
    rw [String.append_empty]
  | cons d rest ih =>
    intro acc
    unfold streamYieldLoop concatAll
    dsimp only
    rw [ih (acc ++ d), String.append_assoc]

theorem streamYieldLoop_contents (p : String) (ds : List String) :
    ∀ acc, ((streamYieldLoop p acc ds).2.1.map (fun y => y.content)) = cumContents acc ds := by
  induction ds with
  | nil => intro acc; rfl
  | cons d rest ih =>
    intro acc
    unfold streamYieldLoop cumContents
    dsimp only
    rw [List.map_cons, ih (acc ++ d)]

theorem streamYieldLoop_paths (p : String) (ds : List String) :
    ∀ acc, ∀ y ∈ (streamYieldLoop p acc ds).2.1, y.path = p := by
  induction ds with
  | nil => intro acc y hy; cases hy
  | cons d rest ih =>
    intro acc y hy
    unfold streamYieldLoop at hy
    dsimp only at hy
    rcases List.mem_cons.mp hy with rfl | hy
    · rfl
    · exact ih (acc ++ d) y hy

theorem strPre_append (a b : String) : strPre a (a ++ b) = true := by
  unfold strPre
  rw [List.isPrefixOf_iff_prefix]
  show a.data <+: (a ++ b).data
  rw [String.data_append]
  exact List.prefix_append _ _

theorem strPre_trans {a b c : String} (h1 : strPre a b = true)
    (h2 : strPre b c = true) : strPre a c = true := by
  unfold strPre at h1 h2 ⊢
  rw [List.isPrefixOf_iff_prefix] at h1 h2 ⊢
  exact h1.trans h2

theorem cumContents_all_pre (ds : List String) :
    ∀ acc, ∀ x ∈ cumContents acc ds, strPre acc x = true := by
  induction ds with
  | nil => intro acc x hx; cases hx
  | cons d rest ih =>
    intro acc x hx
    unfold cumContents at hx
    rcases List.mem_cons.mp hx with rfl | hx
    · exact strPre_append acc d
    · exact strPre_trans (strPre_append acc d) (ih (acc ++ d) x hx)

theorem cumContents_pairwise (ds : List String) :
    ∀ acc, List.Pairwise (fun a b => strPre a b = true) (cumContents acc ds) := by
  induction ds with
  | nil => intro acc; exact List.Pairwise.nil
  | cons d rest ih =>
    intro acc
    unfold cumContents
    exact List.Pairwise.cons (fun y hy => cumContents_all_pre rest (acc ++ d) y hy) (ih _)

theorem cumContents_pre_full (ds : List String) :
    ∀ acc, ∀ x ∈ cumContents acc ds, strPre x (acc ++ concatAll ds) = true := by
  induction ds with
  | nil => intro acc x hx; cases hx
  | cons d rest ih =>
    intro acc x hx
    unfold cumContents at hx
    unfold concatAll
    rcases List.mem_cons.mp hx with rfl | hx
    · rw [← String.append_assoc]
      exact strPre_append _ _
    · rw [← String.append_assoc]
      exact ih (acc ++ d) x hx

/-! ## Fence-stripping lemmas on backtick-free text -/

theorem fenceHead_false {l : List Char} (h : ∀ c ∈ l, c ≠ btick) :
    fenceHead l = false := by
  unfold fenceHead
  split
  next c1 c2 c3 rest =>
    have h1 : ¬(c1 = btick) := h c1 (by simp)
    simp [h1]
  next => rfl

theorem stripFenceAux_id (fuel : Nat) (l : List Char) (h : ∀ c ∈ l, c ≠ btick) :
    stripFenceAux fuel l = l := by
  induction fuel generalizing l with
  | zero => rfl
  | succ n ih =>
    match l with
    | [] => rfl
    | c :: cs =>
      have hcs : ∀ x ∈ cs, x ≠ btick := fun x hx => h x (by simp [hx])
      have hf1 : fenceHead (c :: cs) = false := fenceHead_false h
      have hf2 : fenceHead cs = false := fenceHead_false hcs
      unfold stripFenceAux
      dsimp only
      rw [hf1]
      simp only [Bool.false_eq_true, if_false, hf2, Bool.and_false]
      rw [ih cs hcs]

theorem trimChars_subset {l : List Char} : ∀ c ∈ trimChars l, c ∈ l := by
  intro c hc
  unfold trimChars at hc
  rw [List.mem_reverse] at hc
  have hc2 := (List.dropWhile_sublist _).subset hc
  rw [List.mem_reverse] at hc2
  exact (List.dropWhile_sublist _).subset hc2

theorem hasSub_fence_false {l : List Char} (h : ∀ c ∈ l, c ≠ btick) :
    hasSub l [btick, btick, btick] = false := by
  induction l with
  | nil => rfl
  | cons c cs ih =>
    have hc : ¬(c = btick) := h c (by simp)
    have hcs : ∀ x ∈ cs, x ≠ btick := fun x hx => h x (by simp [hx])
    unfold hasSub
    have hpre : [btick, btick, btick].isPrefixOf (c :: cs) = false := by
      show (btick == c && List.isPrefixOf [btick, btick] cs) = false
      have : (btick == c) = false := by
        rw [beq_eq_false_iff_ne]
        exact fun e => hc e.symm
      rw [this, Bool.false_and]
    rw [hpre, Bool.false_or]
    exact ih hcs

theorem fsGet_fsWrite_self (fs : List (String × String)) (p c : String) :
    fsGet (fsWrite fs p c) p = some c := by
  induction fs with
  | nil => simp [fsWrite, fsGet, List.lookup]
  | cons qd rest ih =>
    obtain ⟨q, d⟩ := qd
    unfold fsWrite
    by_cases h : q = p
    · subst h
      simp [fsGet, List.lookup]
    · have hne : (p == q) = false := by
        rw [beq_eq_false_iff_ne]
        exact fun e => h e.symm
      simp only [h, if_false]
      show List.lookup p ((q, d) :: fsWrite rest p c) = some c
      rw [List.lookup, hne]
      exact ih

theorem inSkipSet_false {p : String} (h : inSkipSet p = false) :
    isUiPath p = false ∧ configFiles.contains p = false := by
  unfold inSkipSet at h
  exact ⟨(Bool.or_eq_false_iff.mp h).1, (Bool.or_eq_false_iff.mp h).2⟩

/-- C7 (counterexample to the claim as stated): with the stream deltas
forming a fenced code block, the final yielded content is the fence-stripped
text, which differs from the concatenation of the deltas — so "the
concatenation of all deltas equals the content of the final yielded result"
fails. -/
theorem claim_c7_counterexample :
    (generateFileToMemfs c7Oracle "demo" initState "app/page.tsx").yields.getLast? =
      some { path := "app/page.tsx", content := "const x = 1", isComplete := true } ∧
    concatAll ["```tsx\n", "const x = 1", "\n```"] ≠ "const x = 1" :=
  ⟨by decide, by decide⟩

/-- C7 (amended): for a non-skipped path whose stream ends without error,
the final yielded result carries the concatenation of all deltas with every
code-fence match removed and surrounding whitespace trimmed, and exactly
that text is stored in the staging store; when the deltas contain no
backtick at all the clean-up only trims, and the final content contains no
code-fence marker. -/
theorem claim_c7_amended (o : Oracle) (desc : String) (st : OrchState)
    (p : String) (ds : List String)
    (hskip : inSkipSet p = false)
    (hstream : o.stream (filePrompt desc st.ctxFiles p) = (ds, none)) :
    (generateFileToMemfs o desc st p).yields.getLast? =
      some { path := p, content := cleanContent (concatAll ds), isComplete := true } ∧
    fsGet (generateFileToMemfs o desc st p).st.memfs p = some (cleanContent (concatAll ds)) ∧
    (noBt (concatAll ds) = true →
      cleanContent (concatAll ds) = strTrim (concatAll ds) ∧
      hasFence (cleanContent (concatAll ds)) = false) := by
  obtain ⟨gk, ek, cr, pg, pa, sf, wr, rr, rdr, hr, lc, mdr, cc⟩ := o
  dsimp only at hstream
  obtain ⟨h1, h2⟩ := inSkipSet_false hskip
  have hfull : (streamYieldLoop p "" ds).1 = concatAll ds := by
    rw [streamYieldLoop_full]
    show "" ++ concatAll ds = concatAll ds
    rw [String.empty_append]
  refine ⟨?_, ?_, ?_⟩
  · simp only [generateFileToMemfs]
    simp only [h1, h2, Bool.false_eq_true, if_false]
    rw [hstream]
    dsimp only
    rw [hfull]
    exact List.getLast?_concat _
  · simp only [generateFileToMemfs]
    simp only [h1, h2, Bool.false_eq_true, if_false]
    rw [hstream]
    dsimp only
    rw [hfull]
    exact fsGet_fsWrite_self _ _ _
  · intro hnb
    have hchars : ∀ c ∈ (concatAll ds).toList, c ≠ btick := by
      simp only [noBt, List.all_eq_true, decide_eq_true_eq] at hnb
      exact hnb
    have hid : stripFenceAux (concatAll ds).toList.length (concatAll ds).toList =
        (concatAll ds).toList := stripFenceAux_id _ _ hchars
    constructor
    · unfold cleanContent strTrim
      show String.mk (trimChars (stripFenceAux (concatAll ds).toList.length (concatAll ds).toList)) =
        String.mk (trimChars (concatAll ds).toList)
      rw [hid]
    · have heq : cleanContent (concatAll ds) = strTrim (concatAll ds) := by
        unfold cleanContent strTrim
        show String.mk (trimChars (stripFenceAux (concatAll ds).toList.length (concatAll ds).toList)) =
          String.mk (trimChars (concatAll ds).toList)
        rw [hid]
      rw [heq]
      unfold hasFence jsIncludes strTrim
      rw [show ("```" : String).toList = [btick, btick, btick] from by decide]
      refine hasSub_fence_false ?_
      intro c hc
      exact hchars c (trimChars_subset c hc)

/-- C7 (witness): the amended statement instantiated on a fence-free
two-delta stream. -/
theorem claim_c7_amended_witness :
    (generateFileToMemfs c7wOracle "demo" initState "app/page.tsx").yields.getLast? =
      some { path := "app/page.tsx", content := cleanContent (concatAll ["const x", " = 1"]),
             isComplete := true } ∧
    fsGet (generateFileToMemfs c7wOracle "demo" initState "app/page.tsx").st.memfs "app/page.tsx" =
      some (cleanContent (concatAll ["const x", " = 1"])) ∧
    (noBt (concatAll ["const x", " = 1"]) = true →
      cleanContent (concatAll ["const x", " = 1"]) = strTrim (concatAll ["const x", " = 1"]) ∧
      hasFence (cleanContent (concatAll ["const x", " = 1"])) = false) :=
  claim_c7_amended c7wOracle "demo" initState "app/page.tsx" ["const x", " = 1"]
    (by decide) rfl

/-- C8 (counterexample to the claim as stated): with a single delta carrying
a trailing newline, the generator yields the streamed view and then the
trimmed final view, and the streamed view is not a prefix of the final
view — the yield sequence is not prefix-monotonic through the final
observation. -/
theorem claim_c8_counterexample :
    (generateFileToMemfs c8Oracle "demo" initState "app/page.tsx").yields =
      [{ path := "app/page.tsx", content := "hi\n", isComplete := false },
       { path := "app/page.tsx", content := "hi", isComplete := true }] ∧
    strPre "hi\n" "hi" = false :=
  ⟨by decide, by decide⟩

/-- C8 (amended): for a non-skipped path whose stream ends without error,
the streamed (non-final) observations are exactly the cumulative delta
concatenations, pairwise prefix-monotonic, and each is a prefix of the full
generated text; the final observation replaces them with the fence-stripped
trimmed full text; all observations are for the one path, generated by the
single in-flight generation of that path. -/
theorem claim_c8_amended (o : Oracle) (desc : String) (st : OrchState)
    (p : String) (ds : List String)
    (hskip : inSkipSet p = false)
    (hstream : o.stream (filePrompt desc st.ctxFiles p) = (ds, none)) :
    (generateFileToMemfs o desc st p).yields.map (fun y => y.content) =
      cumContents "" ds ++ [cleanContent (concatAll ds)] ∧
    List.Pairwise (fun a b => strPre a b = true) (cumContents "" ds) ∧
    (∀ x ∈ cumContents "" ds, strPre x (concatAll ds) = true) ∧
    (∀ y ∈ (generateFileToMemfs o desc st p).yields, y.path = p) := by
  obtain ⟨gk, ek, cr, pg, pa, sf, wr, rr, rdr, hr, lc, mdr, cc⟩ := o
  dsimp only at hstream
  obtain ⟨h1, h2⟩ := inSkipSet_false hskip
  have hfull : (streamYieldLoop p "" ds).1 = concatAll ds := by
    rw [streamYieldLoop_full]
    show "" ++ concatAll ds = concatAll ds
    rw [String.empty_append]
  refine ⟨?_, cumContents_pairwise ds "", ?_, ?_⟩
  · simp only [generateFileToMemfs]
    simp only [h1, h2, Bool.false_eq_true, if_false]
    rw [hstream]
    dsimp only
    rw [hfull, List.map_append, streamYieldLoop_contents]
    rfl
  · intro x hx
    have h := cumContents_pre_full ds "" x hx
    rw [String.empty_append] at h
    exact h
  · intro y hy
    simp only [generateFileToMemfs] at hy
    simp only [h1, h2, Bool.false_eq_true, if_false] at hy
    rw [hstream] at hy
    dsimp only at hy
    rcases List.mem_append.mp hy with hy | hy
    · exact streamYieldLoop_paths p ds "" y hy
    · rcases List.mem_singleton.mp hy with rfl
      rfl

/-- C8 (witness): the amended statement instantiated on a fence-free
two-delta stream. -/
theorem claim_c8_amended_witness :
    (generateFileToMemfs c7wOracle "demo" initState "app/page.tsx").yields.map (fun y => y.content) =
      cumContents "" ["const x", " = 1"] ++ [cleanContent (concatAll ["const x", " = 1"])] ∧
    List.Pairwise (fun a b => strPre a b = true) (cumContents "" ["const x", " = 1"]) ∧
    (∀ x ∈ cumContents "" ["const x", " = 1"], strPre x (concatAll ["const x", " = 1"]) = true) ∧
    (∀ y ∈ (generateFileToMemfs c7wOracle "demo" initState "app/page.tsx").yields,
      y.path = "app/page.tsx") :=
  claim_c8_amended c7wOracle "demo" initState "app/page.tsx" ["const x", " = 1"]
    (by decide) rfl

/-! ## C9: idempotence of flushing and config seeding -/

theorem fsGet_fsWrite_ne (fs : List (String × String)) (p q c : String) (h : q ≠ p) :
    fsGet (fsWrite fs q c) p = fsGet fs p := by
  have hpq : (p == q) = false := by
    rw [beq_eq_false_iff_ne]
    exact fun e => h e.symm
  induction fs with
  | nil =>
    simp only [fsWrite, fsGet, List.lookup, hpq]
  | cons rd rest ih =>
    obtain ⟨r, d⟩ := rd
    unfold fsWrite
    by_cases hrq : r = q
    · subst hrq
      rw [if_pos rfl]
      simp only [fsGet, List.lookup, hpq]
    · rw [if_neg hrq]
      simp only [fsGet, List.lookup]
      cases hpr : p == r
      · exact ih
      · rfl

theorem fsWrite_eq_self (fs : List (String × String)) (p c : String)
    (h : fsGet fs p = some c) : fsWrite fs p c = fs := by
  induction fs with
  | nil => simp [fsGet, List.lookup] at h
  | cons qd rest ih =>
    obtain ⟨q, d⟩ := qd
    unfold fsWrite
    by_cases hq : q = p
    · subst hq
      rw [if_pos rfl]
      simp only [fsGet, List.lookup, beq_self_eq_true] at h
      rw [Option.some_inj] at h
      rw [h]
    · rw [if_neg hq]
      have hpq : (p == q) = false := by
        rw [beq_eq_false_iff_ne]
        exact fun e => hq e.symm
      simp only [fsGet, List.lookup, hpq] at h
      rw [ih h]

theorem transferLoop_envGet (o : Oracle) (p c : String) (ps : List String) :
    ∀ st : OrchState, fsGet st.envFs p = some c → fsGet st.memfs p = some c →
    fsGet (transferLoop o st ps).2.2.1.envFs p = some c := by
  induction ps with
  | nil =>
    intro st henv _
    exact henv
  | cons q rest ih =>
    intro st henv hmem
    unfold transferLoop
    split
    · exact ih st henv hmem
    next cq heqm =>
      split
      · exact ih st henv hmem
      · split
        · exact henv
        · dsimp only
          refine ih _ ?_ hmem
          by_cases hqp : q = p
          · subst hqp
            rw [heqm] at hmem
            rw [Option.some_inj] at hmem
            rw [hmem]
            exact fsGet_fsWrite_self st.envFs q c
          · rw [fsGet_fsWrite_ne st.envFs p q cq hqp]
            exact henv

theorem transferLoop_cons_none (o : Oracle) (st : OrchState) (q : String) (rest : List String)
    (hq : fsGet st.memfs q = none) :
    transferLoop o st (q :: rest) = transferLoop o st rest := by
  simp only [transferLoop, hq]

theorem transferLoop_cons_empty (o : Oracle) (st : OrchState) (q : String) (rest : List String)
    (hq : fsGet st.memfs q = some "") :
    transferLoop o st (q :: rest) = transferLoop o st rest := by
  simp only [transferLoop, hq, eq_self_iff_true, ite_true]

theorem transferLoop_cons_wfail (o : Oracle) (st : OrchState) (q cq m : String) (rest : List String)
    (hq : fsGet st.memfs q = some cq) (hc : ¬ cq = "") (hw : o.writeResult q = some m) :
    transferLoop o st (q :: rest) = (Except.error m, 0, st, []) := by
  simp only [transferLoop, hq, if_neg hc, hw]

theorem transferLoop_cons_step (o : Oracle) (st : OrchState) (q cq : String) (rest : List String)
    (hq : fsGet st.memfs q = some cq) (hc : ¬ cq = "") (hw : o.writeResult q = none) :
    (transferLoop o st (q :: rest)).2.2.1 =
      (transferLoop o { st with envFs := fsWrite st.envFs q cq } rest).2.2.1 := by
  simp only [transferLoop, hq, if_neg hc, hw]

theorem transferLoop_replay (o : Oracle) (ps : List String) : ∀ st : OrchState,
    (transferLoop o (transferLoop o st ps).2.2.1 ps).2.2.1.envFs =
      (transferLoop o st ps).2.2.1.envFs := by
  induction ps with
  | nil =>
    intro st
    rfl
  | cons q rest ih =>
    intro st
    cases hq : fsGet st.memfs q with
    | none =>
      have hq2 : fsGet (transferLoop o st rest).2.2.1.memfs q = none := by
        rw [(transferLoop_pres o st rest).2.2.2]
        exact hq
      rw [transferLoop_cons_none o st q rest hq,
          transferLoop_cons_none o _ q rest hq2]
      exact ih st
    | some cq =>
      by_cases hc : cq = ""
      · subst hc
        have hq2 : fsGet (transferLoop o st rest).2.2.1.memfs q = some "" := by
          rw [(transferLoop_pres o st rest).2.2.2]
          exact hq
        rw [transferLoop_cons_empty o st q rest hq,
            transferLoop_cons_empty o _ q rest hq2]
        exact ih st
      · cases hw : o.writeResult q with
        | some m =>
          rw [transferLoop_cons_wfail o st q cq m rest hq hc hw]
          rw [transferLoop_cons_wfail o st q cq m rest hq hc hw]
        | none =>
          have hmB : fsGet (transferLoop o { st with envFs := fsWrite st.envFs q cq } rest).2.2.1.memfs q =
              some cq := by
            rw [(transferLoop_pres o { st with envFs := fsWrite st.envFs q cq } rest).2.2.2]
            exact hq
          have hinv : fsGet (transferLoop o { st with envFs := fsWrite st.envFs q cq } rest).2.2.1.envFs q =
              some cq :=
            transferLoop_envGet o q cq rest _ (fsGet_fsWrite_self st.envFs q cq) hq
          have hBB : { (transferLoop o { st with envFs := fsWrite st.envFs q cq } rest).2.2.1 with
                envFs := fsWrite (transferLoop o { st with envFs := fsWrite st.envFs q cq } rest).2.2.1.envFs q cq } =
              (transferLoop o { st with envFs := fsWrite st.envFs q cq } rest).2.2.1 := by
            rw [fsWrite_eq_self _ q cq hinv]
          rw [transferLoop_cons_step o st q cq rest hq hc hw]
          rw [transferLoop_cons_step o _ q cq rest hmB hc hw]
          rw [hBB]
          exact ih { st with envFs := fsWrite st.envFs q cq }

theorem transferFiles_none (o : Oracle) (st : OrchState) (h : st.sandbox = none) :
    transferFilesToSandbox o st = (Except.error ("Sandbox not initialized"), st, []) := by
  unfold transferFilesToSandbox
  rw [h]

theorem transferFiles_sb (o : Oracle) (st : OrchState) (sid : String)
    (h : st.sandbox = some sid) :
    (transferFilesToSandbox o st).2.1 = (transferLoop o st (st.memfs.map Prod.fst)).2.2.1 := by
  unfold transferFilesToSandbox
  rw [h]
  dsimp only
  split
  next n st1 evs heq =>
    rw [heq]
  next m n st1 evs heq =>
    rw [heq]

theorem transferFiles_replay (o : Oracle) (st : OrchState) :
    (transferFilesToSandbox o (transferFilesToSandbox o st).2.1).2.1.envFs =
      (transferFilesToSandbox o st).2.1.envFs := by
  cases hs : st.sandbox with
  | none =>
    rw [transferFiles_none o st hs]
    rw [transferFiles_none o st hs]
  | some sid =>
    have hpres := transferLoop_pres o st (st.memfs.map Prod.fst)
    have hsB : (transferLoop o st (st.memfs.map Prod.fst)).2.2.1.sandbox = some sid := by
      rw [hpres.1, hs]
    rw [transferFiles_sb o st sid hs, transferFiles_sb o _ sid hsB, hpres.2.2.2]
    exact transferLoop_replay o (st.memfs.map Prod.fst) st

theorem copyConfigLoop_pres (o : Oracle) (ps : List String) : ∀ st : OrchState,
    (copyConfigLoop o st ps).2.1.sandbox = st.sandbox ∧
    (copyConfigLoop o st ps).2.1.memfs = st.memfs := by
  induction ps with
  | nil =>
    intro st
    exact ⟨rfl, rfl⟩
  | cons q rest ih =>
    intro st
    unfold copyConfigLoop
    split
    · exact ⟨rfl, rfl⟩
    · dsimp only
      exact ih _

theorem copyConfigLoop_envGet (o : Oracle) (p : String) (ps : List String) :
    ∀ st : OrchState, fsGet st.envFs p = some (o.cfgContent p) →
    fsGet (copyConfigLoop o st ps).2.1.envFs p = some (o.cfgContent p) := by
  induction ps with
  | nil =>
    intro st henv
    exact henv
  | cons q rest ih =>
    intro st henv
    unfold copyConfigLoop
    split
    · exact henv
    · dsimp only
      refine ih _ ?_
      by_cases hqp : q = p
      · subst hqp
        exact fsGet_fsWrite_self st.envFs q (o.cfgContent q)
      · rw [fsGet_fsWrite_ne st.envFs p q (o.cfgContent q) hqp]
        exact henv

theorem copyConfigLoop_cons_wfail (o : Oracle) (st : OrchState) (q m : String) (rest : List String)
    (hw : o.writeResult q = some m) :
    copyConfigLoop o st (q :: rest) = (Except.error m, st, []) := by
  simp only [copyConfigLoop, hw]

theorem copyConfigLoop_cons_step (o : Oracle) (st : OrchState) (q : String) (rest : List String)
    (hw : o.writeResult q = none) :
    (copyConfigLoop o st (q :: rest)).2.1 =
      (copyConfigLoop o { st with envFs := fsWrite st.envFs q (o.cfgContent q) } rest).2.1 := by
  simp only [copyConfigLoop, hw]

theorem copyConfigLoop_replay (o : Oracle) (ps : List String) : ∀ st : OrchState,
    (copyConfigLoop o (copyConfigLoop o st ps).2.1 ps).2.1.envFs =
      (copyConfigLoop o st ps).2.1.envFs := by
  induction ps with
  | nil =>
    intro st
    rfl
  | cons q rest ih =>
    intro st
    cases hw : o.writeResult q with
    | some m =>
      rw [copyConfigLoop_cons_wfail o st q m rest hw]
      rw [copyConfigLoop_cons_wfail o st q m rest hw]
    | none =>
      have hinv : fsGet (copyConfigLoop o { st with envFs := fsWrite st.envFs q (o.cfgContent q) } rest).2.1.envFs q =
          some (o.cfgContent q) :=
        copyConfigLoop_envGet o q rest _ (fsGet_fsWrite_self st.envFs q (o.cfgContent q))
      have hBB : { (copyConfigLoop o { st with envFs := fsWrite st.envFs q (o.cfgContent q) } rest).2.1 with
            envFs := fsWrite (copyConfigLoop o { st with envFs := fsWrite st.envFs q (o.cfgContent q) } rest).2.1.envFs q (o.cfgContent q) } =
          (copyConfigLoop o { st with envFs := fsWrite st.envFs q (o.cfgContent q) } rest).2.1 := by
        rw [fsWrite_eq_self _ q (o.cfgContent q) hinv]
      rw [copyConfigLoop_cons_step o st q rest hw]
      rw [copyConfigLoop_cons_step o _ q rest hw]
      rw [hBB]
      exact ih { st with envFs := fsWrite st.envFs q (o.cfgContent q) }

theorem copyConfig_none (o : Oracle) (st : OrchState) (h : st.sandbox = none) :
    copyConfigFiles o st = (Except.error ("Sandbox not initialized"), st, []) := by
  unfold copyConfigFiles
  rw [h]

theorem copyConfig_sb (o : Oracle) (st : OrchState) (sid : String)
    (h : st.sandbox = some sid) :
    (copyConfigFiles o st).2.1 = (copyConfigLoop o st configFiles).2.1 := by
  unfold copyConfigFiles
  rw [h]
  dsimp only
  split
  next st1 evs heq =>
    rw [heq]
  next m st1 evs heq =>
    rw [heq]

theorem copyConfig_replay (o : Oracle) (st : OrchState) :
    (copyConfigFiles o (copyConfigFiles o st).2.1).2.1.envFs =
      (copyConfigFiles o st).2.1.envFs := by
  cases hs : st.sandbox with
  | none =>
    rw [copyConfig_none o st hs]
    rw [copyConfig_none o st hs]
  | some sid =>
    have hsB : (copyConfigLoop o st configFiles).2.1.sandbox = some sid := by
      rw [(copyConfigLoop_pres o configFiles st).1, hs]
    rw [copyConfig_sb o st sid hs, copyConfig_sb o _ sid hsB]
    exact copyConfigLoop_replay o configFiles st

/-- C9: flushing is idempotent on the environment file state.  For every
oracle and every orchestrator state, running `transferFilesToSandbox` a
second time from the state the first run produced (the staged contents are
unchanged, since the transfer never modifies the staging store) leaves the
sandbox path-to-content mapping exactly as the single run left it; likewise
re-seeding the fixed configuration file set with `copyConfigFiles` twice
yields the same environment file state as seeding once.  Each write is
keyed by path and fully overwrites, so replaying writes the same bytes. -/
theorem claim_c9 (o : Oracle) (st : OrchState) :
    (transferFilesToSandbox o (transferFilesToSandbox o st).2.1).2.1.envFs =
      (transferFilesToSandbox o st).2.1.envFs ∧
    (copyConfigFiles o (copyConfigFiles o st).2.1).2.1.envFs =
      (copyConfigFiles o st).2.1.envFs :=
  ⟨transferFiles_replay o st, copyConfig_replay o st⟩

/-- C10: every environment-touching public operation — `runCommand`,
`exportProject`, `saveFileEdit`, `readFileContent`, `restartDevServer`,
`getProjectFiles` and `transferFilesToSandbox` — called while no sandbox
reference is held returns the thrown message "Sandbox not initialized"
immediately, with the state (staging store and environment included)
returned unchanged and no events emitted. -/
theorem claim_c10 (o : Oracle) (st : OrchState) (cmd fp content : String)
    (h : st.sandbox = none) :
    runCommand o st cmd = (Except.error ("Sandbox not initialized"), st, []) ∧
    exportProject o st = (Except.error ("Sandbox not initialized"), st, []) ∧
    saveFileEdit o st fp content = (Except.error ("Sandbox not initialized"), st, []) ∧
    readFileContent o st fp = (Except.error ("Sandbox not initialized"), st, []) ∧
    restartDevServer o st = (Except.error ("Sandbox not initialized"), st, []) ∧
    getProjectFiles o st = (Except.error ("Sandbox not initialized"), st, []) ∧
    transferFilesToSandbox o st = (Except.error ("Sandbox not initialized"), st, []) := by
  refine ⟨?_, ?_, ?_, ?_, ?_, ?_, ?_⟩
  · unfold runCommand
    rw [h]
  · unfold exportProject
    rw [h]
  · unfold saveFileEdit
    rw [h]
  · unfold readFileContent
    rw [h]
  · unfold restartDevServer
    rw [h]
  · unfold getProjectFiles
    rw [h]
  · unfold transferFilesToSandbox
    rw [h]

/-- C10 (witness): the guard conjunction instantiated at the fresh state,
whose sandbox reference is `none`. -/
theorem claim_c10_witness :
    runCommand baseOracle initState "ls" = (Except.error ("Sandbox not initialized"), initState, []) ∧
    exportProject baseOracle initState = (Except.error ("Sandbox not initialized"), initState, []) ∧
    saveFileEdit baseOracle initState "app/page.tsx" "x" = (Except.error ("Sandbox not initialized"), initState, []) ∧
    readFileContent baseOracle initState "app/page.tsx" = (Except.error ("Sandbox not initialized"), initState, []) ∧
    restartDevServer baseOracle initState = (Except.error ("Sandbox not initialized"), initState, []) ∧
    getProjectFiles baseOracle initState = (Except.error ("Sandbox not initialized"), initState, []) ∧
    transferFilesToSandbox baseOracle initState = (Except.error ("Sandbox not initialized"), initState, []) :=
  claim_c10 baseOracle initState "ls" "app/page.tsx" "x" rfl
